import Mathlib

/-!
# breakingbad: the PvP challenge server

A shallow embedding of `src/server/server.js` (an Express application over a
SQLite database) and the properties of its save, reputation and challenge
handling.

Conventions of the embedding.

* Every request handler is a function from the database state and the request
  to the new database state and the reply.  A handler runs to completion
  before the next one starts (requests are served one after the other), and
  the database engine reports no error other than a violated `UNIQUE` or
  `PRIMARY KEY` constraint.  Section "Calls in flight" lifts the first
  restriction for `POST /api/pvpBattle`: there a call proceeds one database
  statement at a time, and the statements of two calls are interleaved.
* A table is the list of its rows in insertion order; `db.get` is `List.find?`,
  an `UPDATE ... WHERE` is a `List.map`, an `INSERT` appends a row.
* What the handlers take from their environment is an argument: the outcome of
  `bcrypt.hash` and `bcrypt.compare`, the random session token, the texts of
  `new Date().toISOString()` and of `datetime('now')`.
* JavaScript numbers are IEEE 754 binary64 values.  A finite value is kept as
  an integer count of units of `2^-1074` (the smallest subnormal), so every
  finite binary64 value has exactly one representation and all arithmetic is
  integer arithmetic followed by rounding to nearest, ties to even.  The sign
  of zero is not represented: it cannot be observed through the operations
  used by the server (`*`, `+`, `-`, `>`, `Math.floor`, `Math.max`,
  `JSON.stringify`).
* A game-state document is typed: the members that `calculateBattleStrength`
  reads are numbers or `null` (`money`, `meth`, `quality`, `weapons`,
  `equipmentLevel`), booleans (`saulHired`, `mikeHired`), a string
  (`character`) and an array (`defeatedVillains`).  A `TEXT` column holding
  JSON is identified with the document it parses to.
-/

namespace BreakingBad

/-! ## JavaScript numbers -/

/-- A JavaScript number: `NaN`, an infinity, or a finite binary64 value given
as a multiple of `2^-1074`. -/
inductive JSNumber where
  | nan
  | inf (neg : Bool)
  | fin (units : ℤ)
deriving DecidableEq, Repr

/-- Bisection step for `log2Floor`: `t` is a lower bound of the result, the
bits of the result below position `k` are still undetermined. -/
def log2Aux : ℕ → ℕ → ℕ → ℕ
  | 0, t, _ => t
  | k + 1, t, n =>
    if n >>> (t + 1 <<< k) = 0 then log2Aux k t n else log2Aux k (t + 1 <<< k) n

/-- Position of the highest set bit of `n` (for `n < 2^8192`; `0` for `n = 0`). -/
def log2Floor (n : ℕ) : ℕ := log2Aux 13 0 n

/-- Number of units in `1.0`. -/
def unitsPerOne : ℕ := 1 <<< 1074

/-- First magnitude (in units) that is too large for a finite binary64: `2^1024`. -/
def overflowUnits : ℕ := 1 <<< 2098

/-- Rounds the non-negative rational `N / D` (a quantity in units) to the
nearest magnitude that a binary64 can hold, ties to even: the result is a
multiple of `2^s` whose quotient by `2^s` has at most 53 bits. -/
def roundRatio (N D : ℕ) : ℕ :=
  let t : ℤ := (log2Floor N : ℤ) - (log2Floor D : ℤ)
  let s0 : ℕ := (t - 53).toNat
  let s : ℕ := if (D <<< (s0 + 53)) ≤ N then s0 + 1 else s0
  let den := D <<< s
  let q := N / den
  let r := N % den
  let q1 := if 2 * r < den then q else if den < 2 * r then q + 1
    else if q % 2 = 0 then q else q + 1
  q1 <<< s

/-- The binary64 nearest to the rational `N / D` units (`D > 0`). -/
def toDouble (N : ℤ) (D : ℕ) : JSNumber :=
  let u := roundRatio N.natAbs D
  if overflowUnits ≤ u then .inf (decide (N < 0))
  else .fin (if N < 0 then -(u : ℤ) else (u : ℤ))

/-- The number denoted by the decimal literal whose exact value is `p / d`. -/
def lit (p : ℤ) (d : ℕ) : JSNumber := toDouble (p * (unitsPerOne : ℤ)) d

/-- The operator `*` on numbers. -/
def JSNumber.mul : JSNumber → JSNumber → JSNumber
  | .fin a, .fin b => toDouble (a * b) unitsPerOne
  | .fin a, .inf n => if a = 0 then .nan else .inf (if a < 0 then !n else n)
  | .inf n, .fin a => if a = 0 then .nan else .inf (if a < 0 then !n else n)
  | .inf n, .inf m => .inf (n != m)
  | _, _ => .nan

/-- The operator `+` on numbers. -/
def JSNumber.add : JSNumber → JSNumber → JSNumber
  | .fin a, .fin b => toDouble (a + b) 1
  | .fin _, .inf n => .inf n
  | .inf n, .fin _ => .inf n
  | .inf n, .inf m => if n = m then .inf n else .nan
  | _, _ => .nan

/-- Unary minus. -/
def JSNumber.neg : JSNumber → JSNumber
  | .nan => .nan
  | .inf n => .inf (!n)
  | .fin a => .fin (-a)

/-- The operator `-` on numbers. -/
def JSNumber.sub (x y : JSNumber) : JSNumber := x.add y.neg

/-- The operator `>` on numbers (`false` as soon as one side is `NaN`). -/
def JSNumber.gt : JSNumber → JSNumber → Bool
  | .fin a, .fin b => decide (b < a)
  | .fin _, .inf n => n
  | .inf n, .fin _ => !n
  | .inf n, .inf m => !n && m
  | _, _ => false

/-- The function `Math.floor`. -/
def Math_floor : JSNumber → JSNumber
  | .fin a => .fin (a / (unitsPerOne : ℤ) * (unitsPerOne : ℤ))
  | x => x

/-- The function `Math.max` of two numbers (`NaN` as soon as one argument is `NaN`). -/
def Math_max (x y : JSNumber) : JSNumber :=
  match x, y with
  | .nan, _ => .nan
  | _, .nan => .nan
  | x, y => if y.gt x then y else x

/-- A number is below zero. `NaN` is not. -/
def JSNumber.isNegative : JSNumber → Bool
  | .fin a => decide (a < 0)
  | .inf n => n
  | .nan => false

/-! ## JSON values of numeric members -/

/-- The value of a numeric member of a game-state document: a number, or
`null`. -/
inductive JSValue where
  | null
  | number (x : JSNumber)
deriving DecidableEq, Repr

/-- The abstract operation `ToNumber`: `null` converts to `0`. -/
def JSValue.toNumber : JSValue → JSNumber
  | .null => .fin 0
  | .number x => x

/-- What a numeric member becomes through `JSON.parse(JSON.stringify(v))`:
`NaN` and the infinities are written as `null`, finite numbers are written with
enough digits to be read back unchanged. -/
def JSValue.jsonRoundTrip : JSValue → JSValue
  | .number (.fin a) => .number (.fin a)
  | _ => .null

/-! ## Game state -/

/-- The members of a game-state document that the server reads, with the types
the game client gives them; `extra` stands for all other members, which the
server never looks at. -/
structure GameState where
  money : JSValue
  meth : JSValue
  quality : JSValue
  weapons : JSValue
  equipmentLevel : JSValue
  character : String
  saulHired : Bool
  mikeHired : Bool
  defeatedVillains : List String
  extra : String
deriving DecidableEq, Repr

/-- The document obtained by `JSON.parse(JSON.stringify(g))`. -/
def GameState.jsonRoundTrip (g : GameState) : GameState :=
  { g with
    money := g.money.jsonRoundTrip
    meth := g.meth.jsonRoundTrip
    quality := g.quality.jsonRoundTrip
    weapons := g.weapons.jsonRoundTrip
    equipmentLevel := g.equipmentLevel.jsonRoundTrip }

/-- The assignment `state.money += reward`. -/
def GameState.gain (state : GameState) (reward : JSNumber) : GameState :=
  { state with money := .number (state.money.toNumber.add reward) }

/-- The assignment `state.money = Math.max(0, state.money - loss)`. -/
def GameState.lose (state : GameState) (loss : JSNumber) : GameState :=
  { state with money := .number (Math_max (lit 0 1) (state.money.toNumber.sub loss)) }

/-- Outcome of reading a property of the `characters` table. -/
inductive Lookup where
  | entry (weaponSkill : JSNumber)
  | inherited
  | undefined
deriving DecidableEq, Repr

/-- Names that every object literal inherits from `Object.prototype`. -/
def objectPrototypeKeys : List String :=
  ["constructor", "toString", "toLocaleString", "valueOf", "hasOwnProperty",
   "isPrototypeOf", "propertyIsEnumerable", "__proto__", "__defineGetter__",
   "__defineSetter__", "__lookupGetter__", "__lookupSetter__"]

/-- The expression `characters[name]` of `calculateBattleStrength`: the two own
entries, an inherited property of the table object, or `undefined`. -/
def characters (name : String) : Lookup :=
  if name = "Walter" then .entry (lit 8 10)
  else if name = "Jesse" then .entry (lit 5 10)
  else if name ∈ objectPrototypeKeys then .inherited
  else .undefined

deriving instance DecidableEq for Except

/-- An exception that escapes a handler. -/
inductive JSError where
  | typeError
deriving DecidableEq, Repr

/-- The function `calculateBattleStrength(state)`.  Reading `.weaponSkill` of `undefined`
throws a `TypeError`; of an inherited property it gives `undefined`, which `*`
converts to `NaN`.  The sum is evaluated left to right. -/
def calculateBattleStrength (state : GameState) : Except JSError JSNumber :=
  match characters state.character with
  | .undefined => .error .typeError
  | c =>
    let weaponSkill : JSNumber := match c with
      | .entry w => w
      | _ => .nan
    .ok ((((((
      (state.money.toNumber.mul (lit 1 1000)).add
      ((state.meth.toNumber.mul state.quality.toNumber).mul (lit 5 10))).add
      ((state.weapons.toNumber.mul weaponSkill).mul (lit 2 1))).add
      (state.equipmentLevel.toNumber.mul (lit 5 10))).add
      (if state.saulHired then lit 1 1 else lit 0 1)).add
      (if state.mikeHired then lit 2 1 else lit 0 1)).add
      ((lit state.defeatedVillains.length 1).mul (lit 5 10)))

/-! ## Database -/

/-- Column `status` of `pvp_challenges`; the server writes no other value. -/
inductive Status where
  | pending
  | accepted
  | rejected
  | completed
deriving DecidableEq, Repr

/-- A `TEXT` column written with `JSON.stringify` and read with `JSON.parse`,
identified with the document its text parses to. -/
structure JSONText (α : Type) where
  parsed : α
deriving DecidableEq, Repr

/-- The function `JSON.parse` of a stored text. -/
def JSON_parse {α : Type} (t : JSONText α) : α := t.parsed

/-- The function `JSON.stringify` of a game state. -/
def JSON_stringify (g : GameState) : JSONText GameState := ⟨g.jsonRoundTrip⟩

/-- The result document of a battle. -/
structure BattleResult where
  player : String
  opponent : String
  playerStrength : JSValue
  opponentStrength : JSValue
  playerWon : Bool
  reward : JSValue
  loss : JSValue
  timestamp : String
deriving DecidableEq, Repr

/-- The document obtained by `JSON.parse(JSON.stringify(r))`. -/
def BattleResult.jsonRoundTrip (r : BattleResult) : BattleResult :=
  { r with
    playerStrength := r.playerStrength.jsonRoundTrip
    opponentStrength := r.opponentStrength.jsonRoundTrip
    reward := r.reward.jsonRoundTrip
    loss := r.loss.jsonRoundTrip }

/-- The function `JSON.stringify` of a result document. -/
def JSON_stringifyResult (r : BattleResult) : JSONText BattleResult := ⟨r.jsonRoundTrip⟩

/-- Row of table `users`. -/
structure UserRow where
  id : ℕ
  username : String
  password : String
deriving DecidableEq, Repr

/-- Row of table `sessions`. -/
structure SessionRow where
  id : ℕ
  user_id : ℕ
  token : String
  expires_at : String
deriving DecidableEq, Repr

/-- Row of table `saved_games`. -/
structure SaveRow where
  id : ℕ
  user_id : ℕ
  name : String
  game_state : JSONText GameState
deriving DecidableEq, Repr

/-- Row of table `pvp_stats`. -/
structure StatsRow where
  user_id : ℕ
  wins : ℤ
  losses : ℤ
  reputation : ℤ
deriving DecidableEq, Repr

/-- Row of table `pvp_challenges`. -/
structure ChallengeRow where
  id : ℕ
  challenger_id : ℕ
  opponent_id : ℕ
  status : Status
  battle_result : Option (JSONText BattleResult)
deriving DecidableEq, Repr

/-- The database: the five tables, and for each `AUTOINCREMENT` table the
largest row id handed out so far (table `sqlite_sequence`).  The `created_at`
columns, read only by the listing queries, are left out. -/
structure Store where
  users : List UserRow
  sessions : List SessionRow
  saved_games : List SaveRow
  pvp_stats : List StatsRow
  pvp_challenges : List ChallengeRow
  users_seq : ℕ
  sessions_seq : ℕ
  saved_games_seq : ℕ
  pvp_challenges_seq : ℕ
deriving DecidableEq, Repr

/-- The database right after the `CREATE TABLE` statements. -/
def Store.empty : Store :=
  { users := [], sessions := [], saved_games := [], pvp_stats := [], pvp_challenges := [],
    users_seq := 0, sessions_seq := 0, saved_games_seq := 0, pvp_challenges_seq := 0 }

/-- Row id given to a new row of an `AUTOINCREMENT` table: one more than the
largest id that the table holds or has ever held. -/
def nextId (seq : ℕ) (ids : List ℕ) : ℕ := max seq (ids.foldr max 0) + 1

/-- What a handler sends back, or the exception that escapes it. -/
inductive Reply (α : Type) where
  | success (payload : α)
  | failure (message : String)
  | uncaught (error : JSError)
deriving DecidableEq, Repr

/-! ### Failure messages, under the names the specification gives them -/

/-- Message of the check on required request members. -/
def MissingRequiredFields : String := "Missing required fields"

/-- Message of `resolve` when no accepted challenge has the id. -/
def ChallengeNotAcceptedOrMissing : String := "Challenge not found or not accepted"

/-- Message of `resolve` when the acting user name is unknown. -/
def PlayerNotFound : String := "Player not found"

/-- Message of `resolve` when the acting user is neither side of the challenge. -/
def NotAParticipant : String := "You are not part of this challenge"

/-- Message of `resolve` when the counterpart has no save. -/
def OpponentHasNoSave : String := "Opponent has no saved game"

/-- Message of `createChallenge` when the pair already has a pending challenge. -/
def DuplicatePending : String := "Challenge already pending"

/-- Message of `load` when the account has no save. -/
def NoSaveFound : String := "No saved game found"

/-- Message of `resolveSession` for an unknown or expired token. -/
def InvalidOrExpiredSession : String := "Invalid or expired session"

/-- The query `SELECT id FROM users WHERE username = ?`. -/
def findUser (s : Store) (username : String) : Option UserRow :=
  s.users.find? (fun u => decide (u.username = username))

/-- The query `SELECT ... FROM saved_games WHERE user_id = ?`. -/
def findSave (s : Store) (userId : ℕ) : Option SaveRow :=
  s.saved_games.find? (fun r => decide (r.user_id = userId))

/-- The statement `UPDATE saved_games SET game_state = ? WHERE id = ?`. -/
def updateSave (s : Store) (saveId : ℕ) (text : JSONText GameState) : Store :=
  { s with saved_games :=
      s.saved_games.map (fun r => if r.id = saveId then { r with game_state := text } else r) }

/-! ## Request handlers

A request member of string type that is absent or empty is `""`, an absent or
zero challenge id is `0`, an absent `gameState` or `accept` is `none`: these are
exactly the values that the handlers' `!x` tests reject. -/

/-- The handler of `POST /api/signup`.  `hash` is the value produced by `bcrypt.hash`. -/
def signup (s : Store) (username password hash : String) : Store × Reply Unit :=
  if username = "" ∨ password = "" then (s, .failure "Username and password are required")
  else match findUser s username with
  | some _ => (s, .failure "Username already exists")
  | none =>
    let userId := nextId s.users_seq (s.users.map (fun u => u.id))
    let s1 := { s with
      users := s.users ++ [({ id := userId, username := username, password := hash } : UserRow)]
      users_seq := userId }
    if s1.pvp_stats.any (fun r => decide (r.user_id = userId)) then
      (s1, .failure "Error creating PvP stats")
    else
      ({ s1 with pvp_stats := s1.pvp_stats ++
          [({ user_id := userId, wins := 0, losses := 0, reputation := 100 } : StatsRow)] },
        .success ())

/-- The handler of `POST /api/login`.  `passwordMatches` is the verdict of `bcrypt.compare`,
`token` the value drawn from `crypto.randomBytes` and `expires` the text
`expires.toISOString()` of the date thirty days ahead. -/
def login (s : Store) (username password : String) (passwordMatches : Bool)
    (token expires : String) : Store × Reply (ℕ × String) :=
  if username = "" ∨ password = "" then (s, .failure "Username and password are required")
  else match findUser s username with
  | none => (s, .failure "Invalid username or password")
  | some row =>
    if !passwordMatches then (s, .failure "Invalid username or password")
    else if s.sessions.any (fun r => decide (r.token = token)) then
      (s, .failure "Error creating session")
    else
      let sessionId := nextId s.sessions_seq (s.sessions.map (fun r => r.id))
      ({ s with
          sessions := s.sessions ++
            [({ id := sessionId, user_id := row.id, token := token, expires_at := expires } :
              SessionRow)]
          sessions_seq := sessionId },
        .success (row.id, username))

/-- The order in which SQLite compares two `TEXT` values (collation `BINARY`):
character by character, a proper prefix first. -/
def textLess : List Char → List Char → Bool
  | [], [] => false
  | [], _ :: _ => true
  | _ :: _, [] => false
  | a :: as, b :: bs =>
    if a.toNat < b.toNat then true else if b.toNat < a.toNat then false else textLess as bs

/-- The handler of `GET /api/verifySession`.  `now` is the text that `datetime('now')`
evaluates to; `expires_at` holds a text, and SQLite compares the two as texts. -/
def verifySession (s : Store) (token now : String) : Reply (ℕ × String) :=
  if token = "" then .failure "No session found"
  else
    match s.sessions.findSome? (fun r =>
      if r.token = token ∧ textLess now.data r.expires_at.data = true then
        (s.users.find? (fun u => decide (u.id = r.user_id))).map (fun u => (r.user_id, u.username))
      else none) with
    | none => .failure InvalidOrExpiredSession
    | some row => .success row

/-- The handler of `POST /api/logout`. -/
def logout (s : Store) (token : String) : Store × Reply Unit :=
  if token = "" then (s, .success ())
  else ({ s with sessions := s.sessions.filter (fun r => !decide (r.token = token)) }, .success ())

/-- The handler of `POST /api/saveGame`. -/
def saveGame (s : Store) (username saveName : String) (gameState : Option GameState) :
    Store × Reply ℕ :=
  match gameState with
  | none => (s, .failure MissingRequiredFields)
  | some gameState =>
    if username = "" then (s, .failure MissingRequiredFields)
    else match findUser s username with
    | none => (s, .failure "User not found")
    | some row =>
      match findSave s row.id with
      | some saveRow => (updateSave s saveRow.id (JSON_stringify gameState), .success saveRow.id)
      | none =>
        let saveId := nextId s.saved_games_seq (s.saved_games.map (fun r => r.id))
        ({ s with
            saved_games := s.saved_games ++
              [({ id := saveId, user_id := row.id,
                  name := if saveName = "" then "AutoSave" else saveName,
                  game_state := JSON_stringify gameState } : SaveRow)]
            saved_games_seq := saveId },
          .success saveId)

/-- Payload of `GET /api/loadGame`. -/
structure LoadedGame where
  saveId : ℕ
  saveName : String
  gameState : GameState
deriving DecidableEq, Repr

/-- The handler of `GET /api/loadGame`. -/
def loadGame (s : Store) (username : String) : Reply LoadedGame :=
  if username = "" then .failure "Username is required"
  else match findUser s username with
  | none => .failure "User not found"
  | some row =>
    match findSave s row.id with
    | none => .failure NoSaveFound
    | some saveRow =>
      .success { saveId := saveRow.id, saveName := saveRow.name,
                 gameState := JSON_parse saveRow.game_state }

/-- The handler of `GET /api/pvpStats`. -/
def pvpStats (s : Store) (username : String) : Reply StatsRow :=
  if username = "" then .failure "Username is required"
  else match findUser s username with
  | none => .failure "User not found"
  | some row =>
    match s.pvp_stats.find? (fun r => decide (r.user_id = row.id)) with
    | none => .failure "Stats not found"
    | some r => .success r

/-- The handler of `POST /api/createPvPChallenge`. -/
def createPvPChallenge (s : Store) (username opponent : String) : Store × Reply ℕ :=
  if username = "" ∨ opponent = "" then (s, .failure MissingRequiredFields)
  else match findUser s username with
  | none => (s, .failure "Challenger not found")
  | some challengerRow =>
    match findUser s opponent with
    | none => (s, .failure "Opponent not found")
    | some opponentRow =>
      match s.pvp_challenges.find? (fun c =>
        decide (c.challenger_id = challengerRow.id ∧ c.opponent_id = opponentRow.id
          ∧ c.status = .pending)) with
      | some _ => (s, .failure DuplicatePending)
      | none =>
        let challengeId := nextId s.pvp_challenges_seq (s.pvp_challenges.map (fun c => c.id))
        ({ s with
            pvp_challenges := s.pvp_challenges ++
              [({ id := challengeId, challenger_id := challengerRow.id,
                  opponent_id := opponentRow.id, status := .pending,
                  battle_result := none } : ChallengeRow)]
            pvp_challenges_seq := challengeId },
          .success challengeId)

/-- The handler of `POST /api/respondToChallenge`.  The statement
`UPDATE pvp_challenges SET status = ? WHERE id = ?` has no other condition. -/
def respondToChallenge (s : Store) (username : String) (challengeId : ℕ)
    (accept : Option Bool) : Store × Reply Bool :=
  match accept with
  | none => (s, .failure MissingRequiredFields)
  | some accept =>
    if username = "" ∨ challengeId = 0 then (s, .failure MissingRequiredFields)
    else
      ({ s with pvp_challenges := s.pvp_challenges.map (fun c =>
          if c.id = challengeId then
            { c with status := if accept then .accepted else .rejected }
          else c) },
        .success accept)

/-- Row of the join that opens `POST /api/pvpBattle`. -/
structure AcceptedChallenge where
  id : ℕ
  challenger_id : ℕ
  opponent_id : ℕ
  challenger : String
  opponent : String
deriving DecidableEq, Repr

/-- The query `SELECT ... FROM pvp_challenges c JOIN users uc ... JOIN users uo
... WHERE c.id = ? AND c.status = "accepted"`. -/
def findAcceptedChallenge (s : Store) (challengeId : ℕ) : Option AcceptedChallenge :=
  s.pvp_challenges.findSome? (fun c =>
    if c.id = challengeId ∧ c.status = .accepted then
      (s.users.find? (fun u => decide (u.id = c.challenger_id))).bind (fun uc =>
        (s.users.find? (fun u => decide (u.id = c.opponent_id))).map (fun uo =>
          { id := c.id, challenger_id := c.challenger_id, opponent_id := c.opponent_id,
            challenger := uc.username, opponent := uo.username }))
    else none)

/-- The assignments `wins = wins + 1, reputation = reputation + 10`. -/
def StatsRow.win (r : StatsRow) : StatsRow :=
  { r with wins := r.wins + 1, reputation := r.reputation + 10 }

/-- The assignments `losses = losses + 1, reputation = MAX(0, reputation - 5)`. -/
def StatsRow.loss (r : StatsRow) : StatsRow :=
  { r with losses := r.losses + 1, reputation := max 0 (r.reputation - 5) }

/-- The statement `UPDATE pvp_stats SET wins = wins + 1, reputation = reputation + 10 WHERE
user_id = ?`. -/
def recordWin (s : Store) (userId : ℕ) : Store :=
  { s with pvp_stats := s.pvp_stats.map (fun r => if r.user_id = userId then r.win else r) }

/-- The statement `UPDATE pvp_stats SET losses = losses + 1, reputation = MAX(0, reputation -
5) WHERE user_id = ?`. -/
def recordLoss (s : Store) (userId : ℕ) : Store :=
  { s with pvp_stats := s.pvp_stats.map (fun r => if r.user_id = userId then r.loss else r) }

/-- The statement `UPDATE pvp_challenges SET status = "completed", battle_result = ? WHERE
id = ?`. -/
def completeChallenge (s : Store) (challengeId : ℕ) (text : JSONText BattleResult) : Store :=
  { s with pvp_challenges := s.pvp_challenges.map (fun c =>
      if c.id = challengeId then
        { c with status := .completed, battle_result := some text }
      else c) }

/-- The write-back of one side of a battle: look the save of `userId` up and,
when there is one, overwrite its `game_state`. -/
def writeBack (s : Store) (userId : ℕ) (g : GameState) : Store :=
  match findSave s userId with
  | some saveRow => updateSave s saveRow.id (JSON_stringify g)
  | none => s

/-- The handler of `POST /api/pvpBattle` (the operation `resolve`).  `timestamp` is the text
`new Date().toISOString()`. -/
def pvpBattle (s : Store) (username : String) (challengeId : ℕ)
    (gameState : Option GameState) (timestamp : String) : Store × Reply BattleResult :=
  match gameState with
  | none => (s, .failure MissingRequiredFields)
  | some gameState =>
  if username = "" ∨ challengeId = 0 then (s, .failure MissingRequiredFields)
  else match findAcceptedChallenge s challengeId with
  | none => (s, .failure ChallengeNotAcceptedOrMissing)
  | some challenge =>
  match findUser s username with
  | none => (s, .failure PlayerNotFound)
  | some player =>
  if player.id ≠ challenge.challenger_id ∧ player.id ≠ challenge.opponent_id then
    (s, .failure NotAParticipant)
  else
  let isChallenger : Bool := decide (player.id = challenge.challenger_id)
  let opponentId := if isChallenger then challenge.opponent_id else challenge.challenger_id
  let opponentUsername := if isChallenger then challenge.opponent else challenge.challenger
  match findSave s opponentId with
  | none => (s, .failure OpponentHasNoSave)
  | some gameRow =>
  let opponentGameState := JSON_parse gameRow.game_state
  match calculateBattleStrength gameState with
  | .error e => (s, .uncaught e)
  | .ok playerStrength =>
  match calculateBattleStrength opponentGameState with
  | .error e => (s, .uncaught e)
  | .ok opponentStrength =>
  let playerWon := playerStrength.gt opponentStrength
  let reward := Math_floor (opponentStrength.mul (lit 100 1))
  let loss := Math_floor (playerStrength.mul (lit 50 1))
  let gameState1 : GameState :=
    if playerWon then gameState.gain reward else gameState.lose loss
  let opponentGameState1 : GameState :=
    if playerWon then opponentGameState.lose loss else opponentGameState.gain reward
  let s1 :=
    if playerWon then recordLoss (recordWin s player.id) opponentId
    else recordWin (recordLoss s player.id) opponentId
  let result : BattleResult :=
    { player := username, opponent := opponentUsername,
      playerStrength := .number playerStrength, opponentStrength := .number opponentStrength,
      playerWon := playerWon, reward := .number reward, loss := .number loss,
      timestamp := timestamp }
  let s2 := completeChallenge s1 challengeId (JSON_stringifyResult result)
  let s3 := writeBack s2 player.id gameState1
  let s4 := writeBack s3 opponentId opponentGameState1
  (s4, .success result.jsonRoundTrip)

/-- The handler of `GET /api/challengeStatus`. -/
def challengeStatus (s : Store) (challengeId : ℕ) : Reply Status :=
  if challengeId = 0 then .failure "Challenge ID is required"
  else match s.pvp_challenges.find? (fun c => decide (c.id = challengeId)) with
  | none => .failure "Challenge not found"
  | some row => .success row.status

/-- The handler of `GET /api/challengeResult`. -/
def challengeResult (s : Store) (challengeId : ℕ) : Reply BattleResult :=
  if challengeId = 0 then .failure "Challenge ID is required"
  else match s.pvp_challenges.find? (fun c =>
      decide (c.id = challengeId ∧ c.status = .completed)) with
  | none => .failure "Battle result not found"
  | some row =>
    match row.battle_result with
    | none => .failure "Battle result not found"
    | some text => .success (JSON_parse text)

/-! ## The system as a transition system -/

/-- A request that can change the database, with the values the environment
supplies to its handler. -/
inductive Request where
  | signup (username password hash : String)
  | login (username password : String) (passwordMatches : Bool) (token expires : String)
  | logout (token : String)
  | saveGame (username saveName : String) (gameState : Option GameState)
  | createPvPChallenge (username opponent : String)
  | respondToChallenge (username : String) (challengeId : ℕ) (accept : Option Bool)
  | pvpBattle (username : String) (challengeId : ℕ) (gameState : Option GameState)
      (timestamp : String)
deriving DecidableEq, Repr

/-- The database after a request has been served. -/
def step (s : Store) : Request → Store
  | .signup u p h => (signup s u p h).1
  | .login u p m t e => (login s u p m t e).1
  | .logout t => (logout s t).1
  | .saveGame u n g => (saveGame s u n g).1
  | .createPvPChallenge u o => (createPvPChallenge s u o).1
  | .respondToChallenge u c a => (respondToChallenge s u c a).1
  | .pvpBattle u c g t => (pvpBattle s u c g t).1

/-- The database after a sequence of requests. -/
def run (s : Store) (requests : List Request) : Store := requests.foldl step s

/-- A database state that the server can be in: the outcome of some sequence of
requests on the freshly created database. -/
def Reachable (s : Store) : Prop := ∃ requests, s = run Store.empty requests


/-! ## Specification-side definitions -/

/-- The table of weapon skills as the specification words it: `0.8` for the
Walter archetype, `0.5` for the Jesse archetype. -/
def weaponSkill (character : String) : JSNumber :=
  if character = "Walter" then lit 8 10 else lit 5 10

/-- The strength formula as the specification words it, in binary64
arithmetic. -/
def specStrength (g : GameState) : JSNumber :=
  let money := g.money.toNumber
  let meth := g.meth.toNumber
  let quality := g.quality.toNumber
  let weapons := g.weapons.toNumber
  let equipmentLevel := g.equipmentLevel.toNumber
  ((((((money.mul (lit 1 1000)).add ((meth.mul quality).mul (lit 5 10))).add
    ((weapons.mul (weaponSkill g.character)).mul (lit 2 1))).add
    (equipmentLevel.mul (lit 5 10))).add
    (if g.saulHired then lit 1 1 else lit 0 1)).add
    (if g.mikeHired then lit 2 1 else lit 0 1)).add
    ((lit g.defeatedVillains.length 1).mul (lit 5 10))

/-- The account on the other side of a challenge, as `pvpBattle` determines
it. -/
def counterpartId (challenge : AcceptedChallenge) (player : UserRow) : ℕ :=
  if player.id = challenge.challenger_id then challenge.opponent_id else challenge.challenger_id

/-- The winner's strength, as the specification words step 7 of `resolve`. -/
def winnerStrength (playerWon : Bool) (playerStrength opponentStrength : JSNumber) : JSNumber :=
  if playerWon then playerStrength else opponentStrength

/-- The loser's strength, as the specification words step 7 of `resolve`. -/
def loserStrength (playerWon : Bool) (playerStrength opponentStrength : JSNumber) : JSNumber :=
  if playerWon then opponentStrength else playerStrength

/-- The reward of the specification: `floor(loserStrength * 100)`. -/
def specReward (playerWon : Bool) (playerStrength opponentStrength : JSNumber) : JSNumber :=
  Math_floor ((loserStrength playerWon playerStrength opponentStrength).mul (lit 100 1))

/-- The loss of the specification: `floor(winnerStrength * 50)`. -/
def specLoss (playerWon : Bool) (playerStrength opponentStrength : JSNumber) : JSNumber :=
  Math_floor ((winnerStrength playerWon playerStrength opponentStrength).mul (lit 50 1))

/-- The query `SELECT wins, losses, reputation FROM pvp_stats WHERE user_id = ?`. -/
def findStats (s : Store) (userId : ℕ) : Option StatsRow :=
  s.pvp_stats.find? (fun r => decide (r.user_id = userId))

/-- A numeric member that a JSON text can hold: `null` or a finite number. -/
def JSValue.isJSON : JSValue → Bool
  | .null => true
  | .number (.fin _) => true
  | .number _ => false

/-- A structurally valid game-state document: every numeric member is `null`
or a finite number. -/
def GameState.isJSON (g : GameState) : Bool :=
  g.money.isJSON && g.meth.isJSON && g.quality.isJSON && g.weapons.isJSON
    && g.equipmentLevel.isJSON

/-- A sequence of `save` calls for one user name, each with its `saveName` and
`gameState`: the database afterwards and the replies in order. -/
def saveAll (s : Store) (username : String) : List (String × GameState) → Store × List (Reply ℕ)
  | [] => (s, [])
  | (saveName, gameState) :: rest =>
    let out := saveGame s username saveName (some gameState)
    let tail := saveAll out.1 username rest
    (tail.1, out.2 :: tail.2)

/-! ## Predicates used in the statements -/

/-- A change of a `pvp_stats` row that keeps its owner, lowers neither `wins`
nor `losses` and keeps a non-negative reputation non-negative. -/
def StatsStep (f : StatsRow → StatsRow) : Prop :=
  ∀ row, (f row).user_id = row.user_id ∧ row.wins ≤ (f row).wins
    ∧ row.losses ≤ (f row).losses ∧ (0 ≤ row.reputation → 0 ≤ (f row).reputation)

/-- A change of a `saved_games` row that keeps its id, owner and name and
leaves its text alone or replaces it by a `JSON.stringify` output. -/
def SaveStep (f : SaveRow → SaveRow) : Prop :=
  ∀ row, (f row).id = row.id ∧ (f row).user_id = row.user_id ∧ (f row).name = row.name
    ∧ ((f row).game_state = row.game_state ∨ ∃ g, (f row).game_state = JSON_stringify g)

/-- Well-formedness of `saved_games`: row ids are distinct, no account owns two
rows, and every stored text is a `JSON.stringify` output. -/
structure SavesWellFormed (s : Store) : Prop where
  ids : (s.saved_games.map (fun r => r.id)).Nodup
  owners : (s.saved_games.map (fun r => r.user_id)).Nodup
  texts : ∀ row ∈ s.saved_games,
    (JSON_parse row.game_state).jsonRoundTrip = JSON_parse row.game_state

/-- Well-formedness of `users`: user names are distinct and not empty. -/
structure UsersWellFormed (s : Store) : Prop where
  names : (s.users.map (fun u => u.username)).Nodup
  nonempty : ∀ u ∈ s.users, u.username ≠ ""

/-! ## A worked scenario

Two accounts, `alice` (id 1) with the game state of the specification's worked
example (strength `15.5`) and `bob` (id 2) with a game state of strength `10.0`;
`alice` challenges `bob`, who accepts. -/

/-- The acting player of the worked example of the specification. -/
def exampleActing : GameState :=
  { money := .number (lit 1000 1), meth := .number (lit 10 1), quality := .number (lit 9 10),
    weapons := .number (lit 5 1), equipmentLevel := .number (lit 2 1), character := "Walter",
    saulHired := true, mikeHired := false, defeatedVillains := [], extra := "" }

/-- A game state of strength `10.0`. -/
def exampleCounterpart : GameState :=
  { money := .number (lit 10000 1), meth := .number (lit 0 1), quality := .number (lit 0 1),
    weapons := .number (lit 0 1), equipmentLevel := .number (lit 0 1), character := "Jesse",
    saulHired := false, mikeHired := false, defeatedVillains := [], extra := "" }

/-- The requests that lead to a pending challenge between two accounts with a
save each. -/
def exampleSetup : List Request :=
  [.signup "alice" "secret" "hash-a", .signup "bob" "secret" "hash-b",
   .saveGame "alice" "" (some exampleActing), .saveGame "bob" "" (some exampleCounterpart),
   .createPvPChallenge "alice" "bob"]

/-- The database with challenge 1 pending. -/
def examplePending : Store := run Store.empty exampleSetup

/-- The database with challenge 1 accepted. -/
def exampleStore : Store := step examplePending (.respondToChallenge "bob" 1 (some true))

/-- A value of `new Date().toISOString()`. -/
def exampleTimestamp : String := "2025-01-01T00:00:00.000Z"

/-- The database after `alice` has resolved challenge 1. -/
def exampleAfter : Store :=
  (pvpBattle exampleStore "alice" 1 (some exampleActing) exampleTimestamp).1

/-- The result document of that resolution. -/
def exampleResult : BattleResult :=
  { player := "alice", opponent := "bob",
    playerStrength := .number (lit 31 2), opponentStrength := .number (lit 10 1),
    playerWon := true, reward := .number (lit 1000 1), loss := .number (lit 775 1),
    timestamp := exampleTimestamp }

/-- The result document when `bob` resolves challenge 1 instead: the
counterpart, `alice`, is the stronger side. -/
def exampleLostResult : BattleResult :=
  { player := "bob", opponent := "alice",
    playerStrength := .number (lit 10 1), opponentStrength := .number (lit 31 2),
    playerWon := false, reward := .number (lit 1550 1), loss := .number (lit 500 1),
    timestamp := exampleTimestamp }

/-- A game state of strength `17.5` whose money is `-5000`. -/
def exampleDebtor : GameState :=
  { exampleActing with money := .number (lit (-5000) 1), weapons := .number (lit 10 1) }

/-- The result document when `alice` resolves challenge 1 with the game state
`exampleDebtor`. -/
def exampleDebtorResult : BattleResult :=
  { player := "alice", opponent := "bob",
    playerStrength := .number (lit 35 2), opponentStrength := .number (lit 10 1),
    playerWon := true, reward := .number (lit 1000 1), loss := .number (lit 875 1),
    timestamp := exampleTimestamp }

/-- A later value of `new Date().toISOString()`. -/
def exampleLaterTimestamp : String := "2025-01-01T00:05:00.000Z"

/-- The database after challenge 1, already completed, has been answered
again with `accept = true`. -/
def exampleReopened : Store := step exampleAfter (.respondToChallenge "bob" 1 (some true))

/-- The database after `bob` has then resolved challenge 1 a second time. -/
def exampleReplayed : Store :=
  step exampleReopened (.pvpBattle "bob" 1 (some exampleCounterpart) exampleLaterTimestamp)

/-- The result document of the second resolution: `alice`, whose save now
holds `2000` money, has strength `16.5`. -/
def exampleReplayedResult : BattleResult :=
  { player := "bob", opponent := "alice",
    playerStrength := .number (lit 10 1), opponentStrength := .number (lit 33 2),
    playerWon := false, reward := .number (lit 1650 1), loss := .number (lit 500 1),
    timestamp := exampleLaterTimestamp }

/-- The database after the single request that creates the account `alice`. -/
def exampleFresh : Store := run Store.empty [Request.signup "alice" "secret" "hash-a"]

/-! ## Pending challenges -/

/-- The rows that the duplicate check of `createPvPChallenge` looks for: the
pending challenges from account `challengerId` to account `opponentId`. -/
def pendingBetween (s : Store) (challengerId opponentId : ℕ) : List ChallengeRow :=
  s.pvp_challenges.filter (fun c =>
    decide (c.challenger_id = challengerId ∧ c.opponent_id = opponentId ∧ c.status = .pending))

/-- A change of a `pvp_challenges` row that keeps its id and its two accounts
and does not make it pending. -/
def ChallengeStep (f : ChallengeRow → ChallengeRow) : Prop :=
  ∀ c, (f c).id = c.id ∧ (f c).challenger_id = c.challenger_id
    ∧ (f c).opponent_id = c.opponent_id ∧ ((f c).status = .pending → c.status = .pending)

/-! ## Time stamps as texts -/

/-- A point in time, by its UTC calendar fields. -/
structure UTCInstant where
  year : ℕ
  month : ℕ
  day : ℕ
  hour : ℕ
  minute : ℕ
  second : ℕ
  millisecond : ℕ
deriving DecidableEq, Repr

/-- Whether `a` is strictly earlier than `b`: the fields compared from the year
down to the millisecond. -/
def UTCInstant.before (a b : UTCInstant) : Bool :=
  decide (a.year < b.year) || (decide (a.year = b.year) &&
  (decide (a.month < b.month) || (decide (a.month = b.month) &&
  (decide (a.day < b.day) || (decide (a.day = b.day) &&
  (decide (a.hour < b.hour) || (decide (a.hour = b.hour) &&
  (decide (a.minute < b.minute) || (decide (a.minute = b.minute) &&
  (decide (a.second < b.second) || (decide (a.second = b.second) &&
  decide (a.millisecond < b.millisecond))))))))))))

/-- The decimal digit of `n` at the units place. -/
def digitChar (n : ℕ) : Char := Char.ofNat (48 + n % 10)

/-- The last `width` decimal digits of `n`, with leading zeros. -/
def zeroPadded : ℕ → ℕ → List Char
  | 0, _ => []
  | width + 1, n => zeroPadded width (n / 10) ++ [digitChar n]

/-- The text `YYYY-MM-DD` of the calendar date of an instant (years `0` to
`9999`). -/
def dateText (t : UTCInstant) : List Char :=
  zeroPadded 4 t.year ++ ['-'] ++ zeroPadded 2 t.month ++ ['-'] ++ zeroPadded 2 t.day

/-- The value of `Date.prototype.toISOString`: `YYYY-MM-DDTHH:mm:ss.sssZ`. -/
def toISOString (t : UTCInstant) : String :=
  String.mk (dateText t ++ 'T' :: (zeroPadded 2 t.hour ++ [':'] ++ zeroPadded 2 t.minute ++ [':']
    ++ zeroPadded 2 t.second ++ ['.'] ++ zeroPadded 3 t.millisecond ++ ['Z']))

/-- The value of `datetime('now')` in SQLite at the instant `t`:
`YYYY-MM-DD HH:MM:SS`. -/
def sqliteDatetime (t : UTCInstant) : String :=
  String.mk (dateText t ++ ' ' :: (zeroPadded 2 t.hour ++ [':'] ++ zeroPadded 2 t.minute ++ [':']
    ++ zeroPadded 2 t.second))

/-- The expiry of the session of the scenario below: 31 January 2025, 10:00. -/
def exampleExpiry : UTCInstant :=
  { year := 2025, month := 1, day := 31, hour := 10, minute := 0, second := 0, millisecond := 0 }

/-- Five hours after that expiry, on the same day. -/
def exampleAfterExpiry : UTCInstant :=
  { year := 2025, month := 1, day := 31, hour := 15, minute := 0, second := 0, millisecond := 0 }

/-- The first second of the day after that expiry. -/
def exampleNextDay : UTCInstant :=
  { year := 2025, month := 2, day := 1, hour := 0, minute := 0, second := 0, millisecond := 0 }

/-- The database after `alice` has logged in with a session that expires at
`exampleExpiry`. -/
def exampleLoggedIn : Store :=
  step exampleFresh (.login "alice" "secret" true "token-1" (toISOString exampleExpiry))

/-! ## A character that names an inherited property -/

/-- The game state of the worked example with the character `constructor`. -/
def exampleIntruder : GameState := { exampleActing with character := "constructor" }

/-- The result document when `alice` resolves challenge 1 with the game state
`exampleIntruder`: her strength and the loss are `NaN`, written as `null`. -/
def exampleIntruderResult : BattleResult :=
  { player := "alice", opponent := "bob",
    playerStrength := .null, opponentStrength := .number (lit 10 1),
    playerWon := false, reward := .number (lit 1000 1), loss := .null,
    timestamp := exampleTimestamp }

/-! ## Calls in flight

The handler of `POST /api/pvpBattle` is a chain of callbacks: each database
statement is issued with `db.get` or `db.run`, and the code that follows it
runs when its result arrives.  Between two statements of one call the
statements of another call can be executed.  A call in flight is described by
how far along this chain it is; one step of a call is one database statement
together with the callback that consumes its result (the lookup and the update
of a write-back count as one statement). -/

/-- A statement that a call has issued with `db.run` and that the database has
not executed yet. -/
inductive PendingWrite where
  | statsWin (userId : ℕ)
  | statsLoss (userId : ℕ)
  | challengeUpdate (challengeId : ℕ) (text : JSONText BattleResult)
  | saveUpdate (userId : ℕ) (gameState : GameState)
deriving DecidableEq, Repr

/-- Execution of a pending statement. -/
def PendingWrite.apply (s : Store) : PendingWrite → Store
  | .statsWin userId => recordWin s userId
  | .statsLoss userId => recordLoss s userId
  | .challengeUpdate challengeId text => completeChallenge s challengeId text
  | .saveUpdate userId gameState => writeBack s userId gameState

/-- How far a call of `POST /api/pvpBattle` has got: the request is received
and the status query not yet run; the accepted challenge is known; the acting
player is known too; the reply is sent and statements remain to be executed;
nothing remains. -/
inductive Progress where
  | received
  | hasChallenge (challenge : AcceptedChallenge)
  | hasPlayer (challenge : AcceptedChallenge) (player : UserRow)
  | writing (pending : List PendingWrite)
  | finished
deriving DecidableEq, Repr

/-- A call of `POST /api/pvpBattle` in flight: the request, the progress, and
the reply once it is sent. -/
structure Call where
  username : String
  challengeId : ℕ
  gameState : Option GameState
  timestamp : String
  progress : Progress
  reply : Option (Reply BattleResult)
deriving DecidableEq, Repr

/-- A call that has just been received. -/
def Call.start (username : String) (challengeId : ℕ) (gameState : Option GameState)
    (timestamp : String) : Call :=
  { username := username, challengeId := challengeId, gameState := gameState,
    timestamp := timestamp, progress := .received, reply := none }

/-- The call ends with the given reply. -/
def Call.finish (c : Call) (reply : Reply BattleResult) : Call :=
  { c with progress := .finished, reply := some reply }

/-- One step of a call on the database: the next statement of the chain of
`pvpBattle` and the callback that follows it. -/
def advance (s : Store) (c : Call) : Store × Call :=
  match c.progress with
  | .received =>
    match c.gameState with
    | none => (s, c.finish (.failure MissingRequiredFields))
    | some _ =>
      if c.username = "" ∨ c.challengeId = 0 then (s, c.finish (.failure MissingRequiredFields))
      else match findAcceptedChallenge s c.challengeId with
      | none => (s, c.finish (.failure ChallengeNotAcceptedOrMissing))
      | some challenge => (s, { c with progress := .hasChallenge challenge })
  | .hasChallenge challenge =>
    match findUser s c.username with
    | none => (s, c.finish (.failure PlayerNotFound))
    | some player =>
      if player.id ≠ challenge.challenger_id ∧ player.id ≠ challenge.opponent_id then
        (s, c.finish (.failure NotAParticipant))
      else (s, { c with progress := .hasPlayer challenge player })
  | .hasPlayer challenge player =>
    match c.gameState with
    | none => (s, c.finish (.failure MissingRequiredFields))
    | some gameState =>
    let isChallenger : Bool := decide (player.id = challenge.challenger_id)
    let opponentId := if isChallenger then challenge.opponent_id else challenge.challenger_id
    let opponentUsername := if isChallenger then challenge.opponent else challenge.challenger
    match findSave s opponentId with
    | none => (s, c.finish (.failure OpponentHasNoSave))
    | some gameRow =>
    let opponentGameState := JSON_parse gameRow.game_state
    match calculateBattleStrength gameState with
    | .error e => (s, c.finish (.uncaught e))
    | .ok playerStrength =>
    match calculateBattleStrength opponentGameState with
    | .error e => (s, c.finish (.uncaught e))
    | .ok opponentStrength =>
    let playerWon := playerStrength.gt opponentStrength
    let reward := Math_floor (opponentStrength.mul (lit 100 1))
    let loss := Math_floor (playerStrength.mul (lit 50 1))
    let gameState1 : GameState :=
      if playerWon then gameState.gain reward else gameState.lose loss
    let opponentGameState1 : GameState :=
      if playerWon then opponentGameState.lose loss else opponentGameState.gain reward
    let statements : List PendingWrite :=
      if playerWon then [.statsWin player.id, .statsLoss opponentId]
      else [.statsLoss player.id, .statsWin opponentId]
    let result : BattleResult :=
      { player := c.username, opponent := opponentUsername,
        playerStrength := .number playerStrength, opponentStrength := .number opponentStrength,
        playerWon := playerWon, reward := .number reward, loss := .number loss,
        timestamp := c.timestamp }
    (s, { c with
      progress := .writing (statements ++
        [.challengeUpdate c.challengeId (JSON_stringifyResult result),
         .saveUpdate player.id gameState1, .saveUpdate opponentId opponentGameState1])
      reply := some (.success result.jsonRoundTrip) })
  | .writing [] => (s, { c with progress := .finished })
  | .writing (w :: rest) => (w.apply s, { c with progress := .writing rest })
  | .finished => (s, c)

/-- A call taking `n` steps in a row. -/
def advanceBy : ℕ → Store → Call → Store × Call
  | 0, s, c => (s, c)
  | n + 1, s, c => advanceBy n (advance s c).1 (advance s c).2

/-- Two calls in flight under a schedule: at each entry the first call
(`false`) or the second call (`true`) takes its next step. -/
def interleave (s : Store) (a b : Call) : List Bool → Store × Call × Call
  | [] => (s, a, b)
  | false :: rest => interleave (advance s a).1 (advance s a).2 b rest
  | true :: rest => interleave (advance s b).1 a (advance s b).2 rest

/-- The number of steps that a call takes before its first `db.run`
statement can be executed. -/
def Progress.readingSteps : Progress → ℕ
  | .received => 3
  | .hasChallenge _ => 2
  | .hasPlayer _ _ => 1
  | .writing _ => 0
  | .finished => 3

/-- The call of `alice` on challenge 1 of the worked scenario. -/
def exampleCallA : Call := Call.start "alice" 1 (some exampleActing) exampleTimestamp

/-- The call of `bob` on the same challenge. -/
def exampleCallB : Call := Call.start "bob" 1 (some exampleCounterpart) exampleLaterTimestamp

/-- The schedule in which the two calls take their steps in turn. -/
def exampleAlternating : List Bool :=
  [false, true, false, true, false, true, false, true,
   false, true, false, true, false, true, false, true]

/-- The schedule in which the first call runs to its end before the second
starts. -/
def exampleOneAfterTheOther : List Bool :=
  [false, false, false, false, false, false, false, false,
   true, true, true, true, true, true, true, true]

/-- Whether the reply of a call has been sent. -/
def Progress.answered : Progress → Bool
  | .writing _ => true
  | .finished => true
  | _ => false

/-! # Lemmas -/

/-! ## The numbers of the worked scenario -/

/-- The literals of the worked scenario denote their exact values: `n` is
`n * 2^1074` units, and `15.5`, `16.5`, `17.5` are `31`, `33`, `35` times
`2^1073` units. -/
theorem lit_exact_values :
    lit 10 1 = .fin (10 * (unitsPerOne : ℤ))
    ∧ lit 500 1 = .fin (500 * (unitsPerOne : ℤ))
    ∧ lit 775 1 = .fin (775 * (unitsPerOne : ℤ))
    ∧ lit 875 1 = .fin (875 * (unitsPerOne : ℤ))
    ∧ lit 1000 1 = .fin (1000 * (unitsPerOne : ℤ))
    ∧ lit 1550 1 = .fin (1550 * (unitsPerOne : ℤ))
    ∧ lit 1650 1 = .fin (1650 * (unitsPerOne : ℤ))
    ∧ lit 2000 1 = .fin (2000 * (unitsPerOne : ℤ))
    ∧ lit 3650 1 = .fin (3650 * (unitsPerOne : ℤ))
    ∧ lit 9225 1 = .fin (9225 * (unitsPerOne : ℤ))
    ∧ lit 10000 1 = .fin (10000 * (unitsPerOne : ℤ))
    ∧ lit (-4000) 1 = .fin (-4000 * (unitsPerOne : ℤ))
    ∧ lit (-5000) 1 = .fin (-5000 * (unitsPerOne : ℤ))
    ∧ lit 31 2 = .fin (31 * ((1 <<< 1073 : ℕ) : ℤ))
    ∧ lit 33 2 = .fin (33 * ((1 <<< 1073 : ℕ) : ℤ))
    ∧ lit 35 2 = .fin (35 * ((1 <<< 1073 : ℕ) : ℤ))
    ∧ (unitsPerOne : ℤ) = 2 * ((1 <<< 1073 : ℕ) : ℤ) := by
  decide

/-! ## Lemmas on the queries -/

theorem findAcceptedChallenge_eq_none (s : Store) (challengeId : ℕ)
    (h : ∀ c ∈ s.pvp_challenges, c.id = challengeId → c.status ≠ .accepted) :
    findAcceptedChallenge s challengeId = none := by
  unfold findAcceptedChallenge
  rw [List.findSome?_eq_none_iff]
  intro c hc
  have := h c hc
  by_cases hid : c.id = challengeId
  · simp [hid, this hid]
  · simp [hid]

theorem pvpBattle_success_inv {s s' : Store} {username : String} {challengeId : ℕ}
    {gameState : Option GameState} {timestamp : String} {r : BattleResult}
    (h : pvpBattle s username challengeId gameState timestamp = (s', .success r)) :
    ∃ g challenge player gameRow playerStrength opponentStrength,
      gameState = some g ∧ username ≠ "" ∧ challengeId ≠ 0
      ∧ findAcceptedChallenge s challengeId = some challenge
      ∧ findUser s username = some player
      ∧ (player.id = challenge.challenger_id ∨ player.id = challenge.opponent_id)
      ∧ findSave s (counterpartId challenge player) = some gameRow
      ∧ calculateBattleStrength g = .ok playerStrength
      ∧ calculateBattleStrength (JSON_parse gameRow.game_state) = .ok opponentStrength
      ∧ r = BattleResult.jsonRoundTrip
          { player := username
            opponent := if player.id = challenge.challenger_id then challenge.opponent
              else challenge.challenger
            playerStrength := .number playerStrength
            opponentStrength := .number opponentStrength
            playerWon := playerStrength.gt opponentStrength
            reward := .number (Math_floor (opponentStrength.mul (lit 100 1)))
            loss := .number (Math_floor (playerStrength.mul (lit 50 1)))
            timestamp := timestamp }
      ∧ s' = writeBack (writeBack
          (completeChallenge
            (if playerStrength.gt opponentStrength then
              recordLoss (recordWin s player.id) (counterpartId challenge player)
             else recordWin (recordLoss s player.id) (counterpartId challenge player))
            challengeId ⟨r⟩)
          player.id
          (if playerStrength.gt opponentStrength then
            g.gain (Math_floor (opponentStrength.mul (lit 100 1)))
           else g.lose (Math_floor (playerStrength.mul (lit 50 1)))))
          (counterpartId challenge player)
          (if playerStrength.gt opponentStrength then
            (JSON_parse gameRow.game_state).lose (Math_floor (playerStrength.mul (lit 50 1)))
           else (JSON_parse gameRow.game_state).gain
            (Math_floor (opponentStrength.mul (lit 100 1)))) := by
  unfold pvpBattle at h
  split at h
  · simp at h
  rename_i g
  split at h
  · simp at h
  rename_i hreq
  split at h
  · simp at h
  rename_i challenge hch
  split at h
  · simp at h
  rename_i player hpl
  split at h
  · simp at h
  rename_i hpart
  simp only [] at h
  split at h
  · simp at h
  rename_i gameRow hrow
  split at h
  · simp at h
  rename_i ps hps
  split at h
  · simp at h
  rename_i os hos
  simp only [Prod.mk.injEq, Reply.success.injEq] at h
  obtain ⟨hs, hr⟩ := h
  refine ⟨g, challenge, player, gameRow, ps, os, rfl, ?_, ?_, hch, hpl, ?_, ?_, hps, hos, ?_, ?_⟩
  · intro hu; exact hreq (Or.inl hu)
  · intro hc; exact hreq (Or.inr hc)
  · by_contra hcon
    push_neg at hcon
    exact hpart hcon
  · simpa [counterpartId] using hrow
  · rw [← hr]; simp
  · rw [← hs, ← hr]
    simp [counterpartId, JSON_stringifyResult]

/-! ### What the updates leave alone -/

@[simp] theorem recordWin_pvp_challenges (s : Store) (u : ℕ) :
    (recordWin s u).pvp_challenges = s.pvp_challenges := rfl

@[simp] theorem recordLoss_pvp_challenges (s : Store) (u : ℕ) :
    (recordLoss s u).pvp_challenges = s.pvp_challenges := rfl

@[simp] theorem recordWin_users (s : Store) (u : ℕ) : (recordWin s u).users = s.users := rfl

@[simp] theorem recordLoss_users (s : Store) (u : ℕ) : (recordLoss s u).users = s.users := rfl

@[simp] theorem recordWin_saved_games (s : Store) (u : ℕ) :
    (recordWin s u).saved_games = s.saved_games := rfl

@[simp] theorem recordLoss_saved_games (s : Store) (u : ℕ) :
    (recordLoss s u).saved_games = s.saved_games := rfl

@[simp] theorem completeChallenge_users (s : Store) (c : ℕ) (t : JSONText BattleResult) :
    (completeChallenge s c t).users = s.users := rfl

@[simp] theorem completeChallenge_saved_games (s : Store) (c : ℕ) (t : JSONText BattleResult) :
    (completeChallenge s c t).saved_games = s.saved_games := rfl

@[simp] theorem completeChallenge_pvp_stats (s : Store) (c : ℕ) (t : JSONText BattleResult) :
    (completeChallenge s c t).pvp_stats = s.pvp_stats := rfl

@[simp] theorem updateSave_users (s : Store) (i : ℕ) (t : JSONText GameState) :
    (updateSave s i t).users = s.users := rfl

@[simp] theorem updateSave_pvp_stats (s : Store) (i : ℕ) (t : JSONText GameState) :
    (updateSave s i t).pvp_stats = s.pvp_stats := rfl

@[simp] theorem updateSave_pvp_challenges (s : Store) (i : ℕ) (t : JSONText GameState) :
    (updateSave s i t).pvp_challenges = s.pvp_challenges := rfl

@[simp] theorem writeBack_users (s : Store) (u : ℕ) (g : GameState) :
    (writeBack s u g).users = s.users := by
  unfold writeBack; split <;> simp

@[simp] theorem writeBack_pvp_stats (s : Store) (u : ℕ) (g : GameState) :
    (writeBack s u g).pvp_stats = s.pvp_stats := by
  unfold writeBack; split <;> simp

@[simp] theorem writeBack_pvp_challenges (s : Store) (u : ℕ) (g : GameState) :
    (writeBack s u g).pvp_challenges = s.pvp_challenges := by
  unfold writeBack; split <;> simp

theorem findAcceptedChallenge_some {s : Store} {challengeId : ℕ} {a : AcceptedChallenge}
    (h : findAcceptedChallenge s challengeId = some a) :
    ∃ c ∈ s.pvp_challenges, c.id = challengeId ∧ c.status = .accepted
      ∧ a.id = c.id ∧ a.challenger_id = c.challenger_id ∧ a.opponent_id = c.opponent_id
      ∧ (∃ uc ∈ s.users, uc.id = c.challenger_id ∧ a.challenger = uc.username)
      ∧ (∃ uo ∈ s.users, uo.id = c.opponent_id ∧ a.opponent = uo.username) := by
  unfold findAcceptedChallenge at h
  obtain ⟨c, hc, hf⟩ := List.exists_of_findSome?_eq_some h
  refine ⟨c, hc, ?_⟩
  split at hf
  · rename_i hcond
    cases huc : s.users.find? (fun u => decide (u.id = c.challenger_id)) with
    | none => simp [huc] at hf
    | some uc =>
      cases huo : s.users.find? (fun u => decide (u.id = c.opponent_id)) with
      | none => simp [huc, huo] at hf
      | some uo =>
        simp [huc, huo] at hf
        subst hf
        have h1 := List.find?_some huc
        have h2 := List.find?_some huo
        have m1 := List.mem_of_find?_eq_some huc
        have m2 := List.mem_of_find?_eq_some huo
        simp at h1 h2
        exact ⟨hcond.1, hcond.2, rfl, rfl, rfl, ⟨uc, m1, h1, rfl⟩, ⟨uo, m2, h2, rfl⟩⟩
  · simp at hf

theorem find?_map_of_invariant {α : Type} (p : α → Bool) (f : α → α)
    (hp : ∀ x, p (f x) = p x) (l : List α) :
    (l.map f).find? p = (l.find? p).map f := by
  induction l with
  | nil => rfl
  | cons a l ih =>
    simp only [List.map_cons, List.find?_cons, hp a]
    cases p a <;> simp [ih]

theorem findSave_updateSave (s : Store) (i u : ℕ) (t : JSONText GameState) :
    findSave (updateSave s i t) u
      = (findSave s u).map (fun r => if r.id = i then { r with game_state := t } else r) := by
  unfold findSave updateSave
  apply find?_map_of_invariant
  intro x
  by_cases h : x.id = i <;> simp [h]

theorem findSave_user_id {s : Store} {u : ℕ} {row : SaveRow} (h : findSave s u = some row) :
    row.user_id = u := by
  have := List.find?_some h
  simpa using this

theorem findSave_mem {s : Store} {u : ℕ} {row : SaveRow} (h : findSave s u = some row) :
    row ∈ s.saved_games := List.mem_of_find?_eq_some h

/-- The save of `u` after the write-back for `u` itself. -/
theorem findSave_writeBack_self {s : Store} {u : ℕ} {row : SaveRow} (g : GameState)
    (h : findSave s u = some row) :
    findSave (writeBack s u g) u = some { row with game_state := JSON_stringify g } := by
  unfold writeBack
  rw [h]
  simp [findSave_updateSave, h]

/-- The save of `v` after the write-back for `u`: the row keeps its id, owner
and name. -/
theorem findSave_writeBack_shape {s : Store} {u v : ℕ} {row : SaveRow} (g : GameState)
    (h : findSave s v = some row) :
    ∃ t, findSave (writeBack s u g) v = some { row with game_state := t } := by
  unfold writeBack
  cases hu : findSave s u with
  | none => exact ⟨row.game_state, by simpa using h⟩
  | some r0 =>
    simp only [findSave_updateSave, h, Option.map_some']
    by_cases hid : row.id = r0.id
    · exact ⟨JSON_stringify g, by simp [hid]⟩
    · exact ⟨row.game_state, by simp [hid]⟩

theorem jsNumber_gt_irrefl (x : JSNumber) : x.gt x = false := by
  cases x with
  | nan => rfl
  | inf n => cases n <;> rfl
  | fin a => simp [JSNumber.gt]

/-! ### The database after any request -/

theorem pvpBattle_fst_eq_or_success (s : Store) (username : String) (challengeId : ℕ)
    (gameState : Option GameState) (timestamp : String) :
    (pvpBattle s username challengeId gameState timestamp).1 = s
    ∨ ∃ r, pvpBattle s username challengeId gameState timestamp
        = ((pvpBattle s username challengeId gameState timestamp).1, .success r) := by
  unfold pvpBattle
  split
  · exact Or.inl rfl
  split
  · exact Or.inl rfl
  split
  · exact Or.inl rfl
  split
  · exact Or.inl rfl
  split
  · exact Or.inl rfl
  simp only []
  split
  · exact Or.inl rfl
  split
  · exact Or.inl rfl
  split
  · exact Or.inl rfl
  exact Or.inr ⟨_, rfl⟩

theorem statsStep_id : StatsStep id :=
  fun _ => ⟨rfl, le_refl _, le_refl _, fun h => h⟩

theorem statsStep_comp {f g : StatsRow → StatsRow} (hf : StatsStep f) (hg : StatsStep g) :
    StatsStep (g ∘ f) := by
  intro row
  obtain ⟨f1, f2, f3, f4⟩ := hf row
  obtain ⟨g1, g2, g3, g4⟩ := hg (f row)
  exact ⟨by simp [g1, f1], le_trans f2 g2, le_trans f3 g3, fun h => g4 (f4 h)⟩

theorem statsStep_win (u : ℕ) : StatsStep (fun r => if r.user_id = u then r.win else r) := by
  intro row
  by_cases h : row.user_id = u <;> simp [h, StatsRow.win]
  intro h0; omega

theorem statsStep_loss (u : ℕ) : StatsStep (fun r => if r.user_id = u then r.loss else r) := by
  intro row
  by_cases h : row.user_id = u <;> simp [h, StatsRow.loss]

/-- The rows of `pvp_stats` after a battle: every row is kept, credited a win,
or charged a loss. -/
theorem pvpBattle_pvp_stats (s : Store) (username : String) (challengeId : ℕ)
    (gameState : Option GameState) (timestamp : String) :
    ∃ f : StatsRow → StatsRow, StatsStep f ∧
      (pvpBattle s username challengeId gameState timestamp).1.pvp_stats = s.pvp_stats.map f := by
  rcases pvpBattle_fst_eq_or_success s username challengeId gameState timestamp with h | ⟨r, h⟩
  · exact ⟨id, statsStep_id, by simp [h]⟩
  · obtain ⟨g, challenge, player, gameRow, ps, os, -, -, -, -, -, -, -, -, -, -, hs'⟩ :=
      pvpBattle_success_inv h
    rw [hs']
    simp only [writeBack_pvp_stats, completeChallenge_pvp_stats]
    cases ps.gt os
    · exact ⟨_, statsStep_comp (statsStep_loss player.id) (statsStep_win (counterpartId challenge player)),
        by simp [recordWin, recordLoss, List.map_map]⟩
    · exact ⟨_, statsStep_comp (statsStep_win player.id) (statsStep_loss (counterpartId challenge player)),
        by simp [recordWin, recordLoss, List.map_map]⟩

/-- The rows of `pvp_stats` after any request: the old rows, each kept,
credited a win or charged a loss, followed by at most the row of a new
account. -/
theorem step_pvp_stats (s : Store) (req : Request) :
    ∃ (f : StatsRow → StatsRow) (added : List StatsRow), StatsStep f
      ∧ (step s req).pvp_stats = s.pvp_stats.map f ++ added
      ∧ ∀ row ∈ added, row.wins = 0 ∧ row.losses = 0 ∧ row.reputation = 100 := by
  cases req with
  | signup u p h =>
    refine ⟨id, (step s (.signup u p h)).pvp_stats.drop s.pvp_stats.length, statsStep_id, ?_, ?_⟩
    all_goals
      simp only [step, signup]
      split
      · simp
      split
      · simp
      split <;> simp
  | login u p m t e =>
    refine ⟨id, [], statsStep_id, ?_, by simp⟩
    simp only [step, login]
    split
    · simp
    split
    · simp
    split
    · simp
    split <;> simp
  | logout t =>
    refine ⟨id, [], statsStep_id, ?_, by simp⟩
    simp only [step, logout]
    split <;> simp
  | saveGame u n g =>
    refine ⟨id, [], statsStep_id, ?_, by simp⟩
    simp only [step, saveGame]
    split
    · simp
    split
    · simp
    split
    · simp
    split <;> simp
  | createPvPChallenge u o =>
    refine ⟨id, [], statsStep_id, ?_, by simp⟩
    simp only [step, createPvPChallenge]
    split
    · simp
    split
    · simp
    split
    · simp
    split <;> simp
  | respondToChallenge u c a =>
    refine ⟨id, [], statsStep_id, ?_, by simp⟩
    simp only [step, respondToChallenge]
    split
    · simp
    split <;> simp
  | pvpBattle u c g t =>
    obtain ⟨f, hf, h⟩ := pvpBattle_pvp_stats s u c g t
    exact ⟨f, [], hf, by simp [step, h], by simp⟩

theorem run_append_singleton (s : Store) (requests : List Request) (req : Request) :
    run s (requests ++ [req]) = step (run s requests) req := by
  simp [run, List.foldl_append]

theorem run_cons (s : Store) (requests : List Request) (req : Request) :
    run s (req :: requests) = run (step s req) requests := rfl

/-- Induction principle for reachable states. -/
theorem reachable_induction {P : Store → Prop} (h0 : P Store.empty)
    (hstep : ∀ s req, Reachable s → P s → P (step s req)) {s : Store} (h : Reachable s) : P s := by
  obtain ⟨requests, rfl⟩ := h
  induction requests using List.reverseRecOn with
  | nil => exact h0
  | append_singleton l req ih =>
    rw [run_append_singleton]
    exact hstep _ req ⟨l, rfl⟩ ih

theorem reachable_step {s : Store} (h : Reachable s) (req : Request) : Reachable (step s req) := by
  obtain ⟨requests, rfl⟩ := h
  exact ⟨requests ++ [req], (run_append_singleton _ _ _).symm⟩

theorem reachable_stats_nonneg {s : Store} (h : Reachable s) :
    ∀ row ∈ s.pvp_stats, 0 ≤ row.reputation ∧ 0 ≤ row.wins ∧ 0 ≤ row.losses := by
  refine reachable_induction (P := fun s => ∀ row ∈ s.pvp_stats,
    0 ≤ row.reputation ∧ 0 ≤ row.wins ∧ 0 ≤ row.losses) ?_ ?_ h
  · simp [Store.empty]
  · intro s req _ ih
    obtain ⟨f, added, hf, heq, hadd⟩ := step_pvp_stats s req
    intro row hrow
    rw [heq, List.mem_append, List.mem_map] at hrow
    rcases hrow with ⟨row0, h0, rfl⟩ | hrow
    · obtain ⟨-, f2, f3, f4⟩ := hf row0
      obtain ⟨i1, i2, i3⟩ := ih row0 h0
      exact ⟨f4 i1, le_trans i2 f2, le_trans i3 f3⟩
    · obtain ⟨a1, a2, a3⟩ := hadd row hrow
      omega

theorem findStats_step {s : Store} {userId : ℕ} {row : StatsRow} (req : Request)
    (h : findStats s userId = some row) :
    ∃ row', findStats (step s req) userId = some row'
      ∧ row.wins ≤ row'.wins ∧ row.losses ≤ row'.losses := by
  obtain ⟨f, added, hf, heq, -⟩ := step_pvp_stats s req
  refine ⟨f row, ?_, (hf row).2.1, (hf row).2.2.1⟩
  unfold findStats at h ⊢
  rw [heq, List.find?_append, find?_map_of_invariant _ f (fun x => by simp [(hf x).1]), h]
  rfl

theorem findStats_run {s : Store} {userId : ℕ} {row : StatsRow} (requests : List Request)
    (h : findStats s userId = some row) :
    ∃ row', findStats (run s requests) userId = some row'
      ∧ row.wins ≤ row'.wins ∧ row.losses ≤ row'.losses := by
  induction requests generalizing s row with
  | nil => exact ⟨row, h, le_refl _, le_refl _⟩
  | cons req l ih =>
    obtain ⟨row1, h1, w1, l1⟩ := findStats_step req h
    obtain ⟨row2, h2, w2, l2⟩ := ih h1
    exact ⟨row2, h2, le_trans w1 w2, le_trans l1 l2⟩

/-! ### Saves after any request -/

theorem saveStep_id : SaveStep id := fun _ => ⟨rfl, rfl, rfl, Or.inl rfl⟩

theorem saveStep_comp {f g : SaveRow → SaveRow} (hf : SaveStep f) (hg : SaveStep g) :
    SaveStep (g ∘ f) := by
  intro row
  obtain ⟨f1, f2, f3, f4⟩ := hf row
  obtain ⟨g1, g2, g3, g4⟩ := hg (f row)
  refine ⟨by simp [g1, f1], by simp [g2, f2], by simp [g3, f3], ?_⟩
  rcases g4 with g4 | ⟨x, g4⟩
  · rcases f4 with f4 | ⟨y, f4⟩
    · exact Or.inl (by simp [g4, f4])
    · exact Or.inr ⟨y, by simp [g4, f4]⟩
  · exact Or.inr ⟨x, by simp [g4]⟩

theorem saveStep_update (i : ℕ) (g : GameState) :
    SaveStep (fun r => if r.id = i then { r with game_state := JSON_stringify g } else r) := by
  intro row
  by_cases h : row.id = i
  · simp only [h, if_true]
    exact ⟨trivial, trivial, trivial, Or.inr ⟨g, rfl⟩⟩
  · simp only [h, if_false]
    exact ⟨trivial, trivial, trivial, Or.inl trivial⟩

theorem writeBack_saved_games (s : Store) (u : ℕ) (g : GameState) :
    ∃ f, SaveStep f ∧ (writeBack s u g).saved_games = s.saved_games.map f := by
  unfold writeBack
  split
  · exact ⟨_, saveStep_update _ g, rfl⟩
  · exact ⟨_, saveStep_id, by simp⟩

theorem pvpBattle_saved_games (s : Store) (username : String) (challengeId : ℕ)
    (gameState : Option GameState) (timestamp : String) :
    ∃ f, SaveStep f ∧
      (pvpBattle s username challengeId gameState timestamp).1.saved_games
        = s.saved_games.map f := by
  rcases pvpBattle_fst_eq_or_success s username challengeId gameState timestamp with h | ⟨r, h⟩
  · exact ⟨_, saveStep_id, by simp [h]⟩
  · obtain ⟨g, challenge, player, gameRow, ps, os, -, -, -, -, -, -, -, -, -, -, hs'⟩ :=
      pvpBattle_success_inv h
    rw [hs']
    obtain ⟨f2, hf2, e2⟩ := writeBack_saved_games
      (writeBack (completeChallenge
          (if ps.gt os = true then
            recordLoss (recordWin s player.id) (counterpartId challenge player)
           else recordWin (recordLoss s player.id) (counterpartId challenge player))
          challengeId ⟨r⟩) player.id
        (if ps.gt os = true then g.gain (Math_floor (os.mul (lit 100 1)))
         else g.lose (Math_floor (ps.mul (lit 50 1)))))
      (counterpartId challenge player)
      (if ps.gt os = true then
        (JSON_parse gameRow.game_state).lose (Math_floor (ps.mul (lit 50 1)))
       else (JSON_parse gameRow.game_state).gain (Math_floor (os.mul (lit 100 1))))
    obtain ⟨f1, hf1, e1⟩ := writeBack_saved_games
      (completeChallenge
          (if ps.gt os = true then
            recordLoss (recordWin s player.id) (counterpartId challenge player)
           else recordWin (recordLoss s player.id) (counterpartId challenge player))
          challengeId ⟨r⟩) player.id
        (if ps.gt os = true then g.gain (Math_floor (os.mul (lit 100 1)))
         else g.lose (Math_floor (ps.mul (lit 50 1))))
    refine ⟨f2 ∘ f1, saveStep_comp hf1 hf2, ?_⟩
    rw [e2, e1, List.map_map]
    cases ps.gt os <;> simp

/-- The rows of `saved_games` after any request: the old rows, some with a new
text, followed by at most one new row, whose id is fresh and whose owner had no
row. -/
theorem step_saved_games (s : Store) (req : Request) :
    ∃ (f : SaveRow → SaveRow) (added : List SaveRow), SaveStep f
      ∧ (step s req).saved_games = s.saved_games.map f ++ added
      ∧ (added = [] ∨ ∃ row g, added = [row]
          ∧ row.id = nextId s.saved_games_seq (s.saved_games.map (fun r => r.id))
          ∧ findSave s row.user_id = none
          ∧ row.game_state = JSON_stringify g) := by
  cases req with
  | signup u p h =>
    refine ⟨id, [], saveStep_id, ?_, Or.inl rfl⟩
    simp only [step, signup]
    split
    · simp
    split
    · simp
    split <;> simp
  | login u p m t e =>
    refine ⟨id, [], saveStep_id, ?_, Or.inl rfl⟩
    simp only [step, login]
    split
    · simp
    split
    · simp
    split
    · simp
    split <;> simp
  | logout t =>
    refine ⟨id, [], saveStep_id, ?_, Or.inl rfl⟩
    simp only [step, logout]
    split <;> simp
  | saveGame u n g =>
    simp only [step, saveGame]
    split
    · exact ⟨id, [], saveStep_id, by simp, Or.inl rfl⟩
    split
    · exact ⟨id, [], saveStep_id, by simp, Or.inl rfl⟩
    split
    · exact ⟨id, [], saveStep_id, by simp, Or.inl rfl⟩
    split
    · rename_i gs _ _ _ _ _ saveRow _
      exact ⟨_, [], saveStep_update saveRow.id gs, by simp [updateSave], Or.inl rfl⟩
    · rename_i gs _ _ row _ _ hnone
      exact ⟨id, [SaveRow.mk (nextId s.saved_games_seq (s.saved_games.map (fun r => r.id)))
          row.id (if n = "" then "AutoSave" else n) (JSON_stringify gs)], saveStep_id, by simp,
        Or.inr ⟨_, gs, rfl, rfl, hnone, rfl⟩⟩
  | createPvPChallenge u o =>
    refine ⟨id, [], saveStep_id, ?_, Or.inl rfl⟩
    simp only [step, createPvPChallenge]
    split
    · simp
    split
    · simp
    split
    · simp
    split <;> simp
  | respondToChallenge u c a =>
    refine ⟨id, [], saveStep_id, ?_, Or.inl rfl⟩
    simp only [step, respondToChallenge]
    split
    · simp
    split <;> simp
  | pvpBattle u c g t =>
    obtain ⟨f, hf, h⟩ := pvpBattle_saved_games s u c g t
    exact ⟨f, [], hf, by simp [step, h], Or.inl rfl⟩

theorem lt_nextId (seq : ℕ) (ids : List ℕ) : ∀ i ∈ ids, i < nextId seq ids := by
  intro i hi
  have hmax : ∀ (l : List ℕ), ∀ j ∈ l, j ≤ l.foldr max 0 := by
    intro l
    induction l with
    | nil => simp
    | cons a l ih =>
      intro j hj
      simp only [List.foldr_cons]
      rcases List.mem_cons.mp hj with rfl | hj
      · exact le_max_left _ _
      · exact le_trans (ih j hj) (le_max_right _ _)
  have := hmax ids i hi
  unfold nextId
  have h2 : ids.foldr max 0 ≤ max seq (ids.foldr max 0) := le_max_right _ _
  omega

theorem jsValue_jsonRoundTrip_idem (v : JSValue) :
    v.jsonRoundTrip.jsonRoundTrip = v.jsonRoundTrip := by
  cases v with
  | null => rfl
  | number x => cases x <;> rfl

theorem gameState_jsonRoundTrip_idem (g : GameState) :
    g.jsonRoundTrip.jsonRoundTrip = g.jsonRoundTrip := by
  simp [GameState.jsonRoundTrip, jsValue_jsonRoundTrip_idem]

theorem findSave_eq_none {s : Store} {u : ℕ} (h : findSave s u = none) :
    ∀ row ∈ s.saved_games, row.user_id ≠ u := by
  intro row hrow
  have := List.find?_eq_none.mp h row hrow
  simpa using this

theorem step_preserves_saves (s : Store) (req : Request) (h : SavesWellFormed s) :
    SavesWellFormed (step s req) := by
  obtain ⟨f, added, hf, heq, hadd⟩ := step_saved_games s req
  have hid : (s.saved_games.map f).map (fun r => r.id) = s.saved_games.map (fun r => r.id) := by
    rw [List.map_map]
    apply List.map_congr_left
    intro r _
    exact (hf r).1
  have hown : (s.saved_games.map f).map (fun r => r.user_id)
      = s.saved_games.map (fun r => r.user_id) := by
    rw [List.map_map]
    apply List.map_congr_left
    intro r _
    exact (hf r).2.1
  have htext : ∀ row ∈ s.saved_games.map f,
      (JSON_parse row.game_state).jsonRoundTrip = JSON_parse row.game_state := by
    intro row hrow
    obtain ⟨r0, hr0, rfl⟩ := List.mem_map.mp hrow
    rcases (hf r0).2.2.2 with e | ⟨g, e⟩
    · rw [e]; exact h.texts r0 hr0
    · rw [e]; exact gameState_jsonRoundTrip_idem g
  rcases hadd with rfl | ⟨row, g, rfl, hrid, hnone, hrt⟩
  · constructor
    · rw [heq, List.append_nil, hid]; exact h.ids
    · rw [heq, List.append_nil, hown]; exact h.owners
    · rw [heq, List.append_nil]; exact htext
  · constructor
    · rw [heq, List.map_append, hid, List.map_singleton]
      apply List.Nodup.append h.ids (List.nodup_singleton _)
      rw [List.disjoint_singleton]
      intro hmem
      have := lt_nextId s.saved_games_seq _ _ hmem
      omega
    · rw [heq, List.map_append, hown, List.map_singleton]
      apply List.Nodup.append h.owners (List.nodup_singleton _)
      rw [List.disjoint_singleton]
      intro hmem
      obtain ⟨r0, hr0, e⟩ := List.mem_map.mp hmem
      exact findSave_eq_none hnone r0 hr0 e
    · rw [heq]
      intro r hr
      rcases List.mem_append.mp hr with hr | hr
      · exact htext r hr
      · rw [List.mem_singleton] at hr
        rw [hr, hrt]
        exact gameState_jsonRoundTrip_idem g

theorem reachable_saves {s : Store} (h : Reachable s) : SavesWellFormed s := by
  refine reachable_induction (P := SavesWellFormed) ?_ ?_ h
  · exact ⟨by simp [Store.empty], by simp [Store.empty], by simp [Store.empty]⟩
  · intro s req _ ih
    exact step_preserves_saves s req ih

/-- The rows of `users` after any request: the old rows, followed by at most
one new row, whose name is not empty and was not taken. -/
theorem step_users (s : Store) (req : Request) :
    (step s req).users = s.users
    ∨ ∃ row, (step s req).users = s.users ++ [row] ∧ row.username ≠ ""
        ∧ findUser s row.username = none := by
  cases req with
  | signup u p h =>
    simp only [step, signup]
    split
    · exact Or.inl rfl
    split
    · exact Or.inl rfl
    · rename_i hreq _ hnone
      have hu : u ≠ "" := fun e => hreq (Or.inl e)
      split
      · exact Or.inr ⟨_, rfl, hu, hnone⟩
      · exact Or.inr ⟨_, rfl, hu, hnone⟩
  | login u p m t e =>
    left
    simp only [step, login]
    split
    · simp
    split
    · simp
    split
    · simp
    split <;> simp
  | logout t =>
    left
    simp only [step, logout]
    split <;> simp
  | saveGame u n g =>
    left
    simp only [step, saveGame]
    split
    · simp
    split
    · simp
    split
    · simp
    split <;> simp [updateSave]
  | createPvPChallenge u o =>
    left
    simp only [step, createPvPChallenge]
    split
    · simp
    split
    · simp
    split
    · simp
    split <;> simp
  | respondToChallenge u c a =>
    left
    simp only [step, respondToChallenge]
    split
    · simp
    split <;> simp
  | pvpBattle u c g t =>
    left
    rcases pvpBattle_fst_eq_or_success s u c g t with h | ⟨r, h⟩
    · simp [step, h]
    · obtain ⟨g, challenge, player, gameRow, ps, os, -, -, -, -, -, -, -, -, -, -, hs'⟩ :=
        pvpBattle_success_inv h
      simp only [step]
      rw [hs']
      cases ps.gt os <;> simp

theorem reachable_users {s : Store} (h : Reachable s) : UsersWellFormed s := by
  refine reachable_induction (P := UsersWellFormed) ?_ ?_ h
  · exact ⟨by simp [Store.empty], by simp [Store.empty]⟩
  · intro s req _ ih
    rcases step_users s req with e | ⟨row, e, hne, hnone⟩
    · exact ⟨by rw [e]; exact ih.names, by rw [e]; exact ih.nonempty⟩
    · constructor
      · rw [e, List.map_append, List.map_singleton]
        apply List.Nodup.append ih.names (List.nodup_singleton _)
        rw [List.disjoint_singleton]
        intro hmem
        obtain ⟨u0, hu0, e0⟩ := List.mem_map.mp hmem
        have := List.find?_eq_none.mp hnone u0 hu0
        simp [e0] at this
      · rw [e]
        intro u hu
        rcases List.mem_append.mp hu with hu | hu
        · exact ih.nonempty u hu
        · rw [List.mem_singleton] at hu
          rw [hu]; exact hne

/-! ### Money after a battle -/

theorem findSave_writeBack_other {s : Store} {u v : ℕ} {rowU rowV : SaveRow} (g : GameState)
    (hu : findSave s u = some rowU) (hv : findSave s v = some rowV) (hne : rowV.id ≠ rowU.id) :
    findSave (writeBack s u g) v = some rowV := by
  unfold writeBack
  rw [hu]
  simp [findSave_updateSave, hv, hne]

theorem save_ids_distinct {s : Store} (hs : SavesWellFormed s) {u v : ℕ} {rowU rowV : SaveRow}
    (hu : findSave s u = some rowU) (hv : findSave s v = some rowV) (hne : u ≠ v) :
    rowV.id ≠ rowU.id := by
  intro e
  have := List.inj_on_of_nodup_map hs.ids (findSave_mem hv) (findSave_mem hu) e
  rw [this] at hv
  exact hne ((findSave_user_id hu).symm.trans (findSave_user_id hv))

theorem Math_max_zero_not_negative (x : JSNumber) :
    (Math_max (lit 0 1) x).isNegative = false := by
  have h0 : lit 0 1 = .fin 0 := by decide
  rw [h0]
  cases x with
  | nan => rfl
  | inf n => cases n <;> rfl
  | fin a =>
    simp only [Math_max, JSNumber.gt]
    by_cases h : (0 : ℤ) < a
    · simp [h, JSNumber.isNegative]; omega
    · simp [h, JSNumber.isNegative]

theorem toDouble_not_negative {N : ℤ} (D : ℕ) (h : 0 ≤ N) : (toDouble N D).isNegative = false := by
  have hN : ¬ N < 0 := by omega
  unfold toDouble
  simp only [hN, if_false, decide_False]
  split <;> simp [JSNumber.isNegative]

theorem add_not_negative {x y : JSNumber} (hx : x.isNegative = false) (hy : y.isNegative = false) :
    (x.add y).isNegative = false := by
  cases x with
  | nan => cases y <;> rfl
  | inf n =>
    cases y with
    | nan => rfl
    | inf m =>
      simp only [JSNumber.isNegative] at hx hy
      subst hx; subst hy; rfl
    | fin b => simpa [JSNumber.add] using hx
  | fin a =>
    cases y with
    | nan => rfl
    | inf m => simpa [JSNumber.add] using hy
    | fin b =>
      simp only [JSNumber.isNegative, decide_eq_false_iff_not, not_lt] at hx hy
      exact toDouble_not_negative 1 (by omega)

theorem jsonRoundTrip_not_negative {x : JSNumber} (h : x.isNegative = false) :
    (JSValue.number x).jsonRoundTrip.toNumber.isNegative = false := by
  cases x with
  | nan => rfl
  | inf n => rfl
  | fin a => exact h

theorem findSave_after_writeBacks {X : Store} {u v : ℕ} {rowU rowV : SaveRow}
    (g1 g2 : GameState) (hne : rowV.id ≠ rowU.id)
    (hu : findSave X u = some rowU) (hv : findSave X v = some rowV) :
    findSave (writeBack (writeBack X u g1) v g2) u
      = some { rowU with game_state := JSON_stringify g1 }
    ∧ findSave (writeBack (writeBack X u g1) v g2) v
      = some { rowV with game_state := JSON_stringify g2 } := by
  have a1 := findSave_writeBack_self g1 hu
  have a2 := findSave_writeBack_other g1 hu hv hne
  exact ⟨findSave_writeBack_other g2 a2 a1 (fun e => hne e.symm), findSave_writeBack_self g2 a2⟩

/-! ### Sequences of saves -/

theorem jsValue_jsonRoundTrip_of_isJSON {v : JSValue} (h : v.isJSON = true) :
    v.jsonRoundTrip = v := by
  cases v with
  | null => rfl
  | number x =>
    cases x with
    | fin a => rfl
    | nan => simp [JSValue.isJSON] at h
    | inf n => simp [JSValue.isJSON] at h

theorem gameState_jsonRoundTrip_of_isJSON {g : GameState} (h : g.isJSON = true) :
    g.jsonRoundTrip = g := by
  simp only [GameState.isJSON, Bool.and_eq_true] at h
  obtain ⟨⟨⟨⟨h1, h2⟩, h3⟩, h4⟩, h5⟩ := h
  simp [GameState.jsonRoundTrip, jsValue_jsonRoundTrip_of_isJSON, h1, h2, h3, h4, h5]

theorem findUser_of_mem {s : Store} (hs : UsersWellFormed s) {account : UserRow}
    (h : account ∈ s.users) : findUser s account.username = some account := by
  unfold findUser
  cases hf : s.users.find? (fun u => decide (u.username = account.username)) with
  | none =>
    have := List.find?_eq_none.mp hf account h
    simp at this
  | some u =>
    have h1 := List.find?_some hf
    have m1 := List.mem_of_find?_eq_some hf
    simp only [decide_eq_true_eq] at h1
    rw [List.inj_on_of_nodup_map hs.names m1 h h1]

theorem saveGame_users (s : Store) (username saveName : String) (g : Option GameState) :
    (saveGame s username saveName g).1.users = s.users := by
  unfold saveGame
  split
  · rfl
  split
  · rfl
  split
  · rfl
  split <;> rfl

/-- One `save` call for an existing account of a reachable database. -/
theorem saveGame_of_mem {s : Store} (hs : Reachable s) {account : UserRow}
    (h : account ∈ s.users) (saveName : String) (g : GameState) :
    ∃ row, (saveGame s account.username saveName (some g)).2 = .success row.id
      ∧ findSave (saveGame s account.username saveName (some g)).1 account.id = some row
      ∧ row.game_state = JSON_stringify g
      ∧ ∀ row0, findSave s account.id = some row0 → row.id = row0.id := by
  have hu := reachable_users hs
  have hfind := findUser_of_mem hu h
  have hne := hu.nonempty account h
  unfold saveGame
  simp only [hne, if_false, hfind]
  cases hsave : findSave s account.id with
  | some row0 =>
    refine ⟨{ row0 with game_state := JSON_stringify g }, rfl, ?_, rfl, ?_⟩
    · simp [findSave_updateSave, hsave]
    · intro r0 hr0
      cases hr0
      rfl
  | none =>
    refine ⟨SaveRow.mk (nextId s.saved_games_seq (s.saved_games.map (fun r => r.id)))
      account.id (if saveName = "" then "AutoSave" else saveName) (JSON_stringify g),
      rfl, ?_, rfl, ?_⟩
    · simp only [findSave]
      rw [List.find?_append]
      have : List.find? (fun r => decide (r.user_id = account.id)) s.saved_games = none := hsave
      rw [this]
      simp
    · intro r0 hr0
      cases hr0

theorem saveAll_of_saved {s : Store} (hs : Reachable s) {account : UserRow}
    (h : account ∈ s.users) {row0 : SaveRow} (h0 : findSave s account.id = some row0)
    (calls : List (String × GameState)) :
    Reachable (saveAll s account.username calls).1
    ∧ account ∈ (saveAll s account.username calls).1.users
    ∧ (∀ reply ∈ (saveAll s account.username calls).2, reply = .success row0.id)
    ∧ ∃ row, findSave (saveAll s account.username calls).1 account.id = some row
        ∧ row.id = row0.id
        ∧ row.game_state = (match calls.getLast? with
            | some call => JSON_stringify call.2
            | none => row0.game_state) := by
  induction calls generalizing s row0 with
  | nil => exact ⟨hs, h, by simp [saveAll], row0, h0, rfl, rfl⟩
  | cons call rest ih =>
    obtain ⟨saveName, g⟩ := call
    obtain ⟨row1, hreply, hfind1, htext1, hid1⟩ := saveGame_of_mem hs h saveName g
    have hs1 : Reachable (saveGame s account.username saveName (some g)).1 :=
      reachable_step hs (.saveGame account.username saveName (some g))
    have hmem1 : account ∈ (saveGame s account.username saveName (some g)).1.users := by
      rw [saveGame_users]; exact h
    obtain ⟨r1, r2, r3, row, r4, r5, r6⟩ := ih hs1 hmem1 hfind1
    have e := hid1 row0 h0
    refine ⟨r1, r2, ?_, row, r4, by rw [r5, e], ?_⟩
    · intro reply hreply'
      simp only [saveAll, List.mem_cons] at hreply'
      rcases hreply' with rfl | hreply'
      · rw [hreply, e]
      · rw [r3 reply hreply', e]
    · rw [r6]
      cases rest with
      | nil => simp [htext1]
      | cons c rest' =>
        rw [List.getLast?_cons_cons]
        cases hl : (c :: rest').getLast? with
        | none => simp at hl
        | some lc => rfl

theorem filter_owner_length_le_one (l : List SaveRow) (u : ℕ)
    (h : (l.map (fun r => r.user_id)).Nodup) :
    (l.filter (fun r => decide (r.user_id = u))).length ≤ 1 := by
  induction l with
  | nil => simp
  | cons a l ih =>
    rw [List.map_cons, List.nodup_cons] at h
    by_cases ha : a.user_id = u
    · have hnone : l.filter (fun r => decide (r.user_id = u)) = [] := by
        rw [List.filter_eq_nil_iff]
        intro r hr hru
        simp only [decide_eq_true_eq] at hru
        exact h.1 (List.mem_map.mpr ⟨r, hr, hru.trans ha.symm⟩)
      simp [List.filter_cons, ha, hnone]
    · simp only [List.filter_cons, ha, decide_False]
      exact ih h.2

theorem filter_owner_length_eq_one {s : Store} (hs : SavesWellFormed s) {u : ℕ} {row : SaveRow}
    (h : findSave s u = some row) :
    (s.saved_games.filter (fun r => decide (r.user_id = u))).length = 1 := by
  have h1 := filter_owner_length_le_one s.saved_games u hs.owners
  have h2 : row ∈ s.saved_games.filter (fun r => decide (r.user_id = u)) := by
    rw [List.mem_filter]
    exact ⟨findSave_mem h, by simp [findSave_user_id h]⟩
  have h3 := List.length_pos_of_mem h2
  omega

theorem exampleStore_pvpBattle :
    pvpBattle exampleStore "alice" 1 (some exampleActing) exampleTimestamp
      = (exampleAfter, .success exampleResult) := by decide

theorem exampleStore_reachable : Reachable exampleStore :=
  ⟨exampleSetup ++ [Request.respondToChallenge "bob" 1 (some true)],
    (run_append_singleton Store.empty exampleSetup _).symm⟩

/-! ### Challenges after any request -/

theorem challengeStep_id : ChallengeStep id := fun _ => ⟨rfl, rfl, rfl, fun h => h⟩

theorem challengeStep_respond (challengeId : ℕ) (accept : Bool) :
    ChallengeStep (fun c => if c.id = challengeId then
      { c with status := if accept then .accepted else .rejected } else c) := by
  intro c
  by_cases h : c.id = challengeId
  · simp only [h, if_true]
    refine ⟨trivial, trivial, trivial, ?_⟩
    cases accept <;> simp
  · simp only [h, if_false]
    exact ⟨trivial, trivial, trivial, fun h => h⟩

theorem challengeStep_complete (challengeId : ℕ) (text : JSONText BattleResult) :
    ChallengeStep (fun c => if c.id = challengeId then
      { c with status := .completed, battle_result := some text } else c) := by
  intro c
  by_cases h : c.id = challengeId
  · simp only [h, if_true]
    exact ⟨trivial, trivial, trivial, by simp⟩
  · simp only [h, if_false]
    exact ⟨trivial, trivial, trivial, fun h => h⟩

theorem pvpBattle_pvp_challenges (s : Store) (username : String) (challengeId : ℕ)
    (gameState : Option GameState) (timestamp : String) :
    ∃ f, ChallengeStep f ∧
      (pvpBattle s username challengeId gameState timestamp).1.pvp_challenges
        = s.pvp_challenges.map f := by
  rcases pvpBattle_fst_eq_or_success s username challengeId gameState timestamp with h | ⟨r, h⟩
  · exact ⟨_, challengeStep_id, by simp [h]⟩
  · obtain ⟨g, challenge, player, gameRow, ps, os, -, -, -, -, -, -, -, -, -, -, hs'⟩ :=
      pvpBattle_success_inv h
    refine ⟨_, challengeStep_complete challengeId ⟨r⟩, ?_⟩
    rw [hs']
    simp only [writeBack_pvp_challenges, completeChallenge]
    cases ps.gt os <;> simp

/-- The rows of `pvp_challenges` after any request: the old rows, none of them
made pending, followed by at most one new row, which is pending, has no result
and joins a pair of accounts that had no pending challenge. -/
theorem step_pvp_challenges (s : Store) (req : Request) :
    ∃ (f : ChallengeRow → ChallengeRow) (added : List ChallengeRow), ChallengeStep f
      ∧ (step s req).pvp_challenges = s.pvp_challenges.map f ++ added
      ∧ (added = [] ∨ ∃ row, added = [row] ∧ row.status = .pending
          ∧ row.battle_result = none
          ∧ pendingBetween s row.challenger_id row.opponent_id = []) := by
  cases req with
  | signup u p h =>
    refine ⟨id, [], challengeStep_id, ?_, Or.inl rfl⟩
    simp only [step, signup]
    split
    · simp
    split
    · simp
    split <;> simp
  | login u p m t e =>
    refine ⟨id, [], challengeStep_id, ?_, Or.inl rfl⟩
    simp only [step, login]
    split
    · simp
    split
    · simp
    split
    · simp
    split <;> simp
  | logout t =>
    refine ⟨id, [], challengeStep_id, ?_, Or.inl rfl⟩
    simp only [step, logout]
    split <;> simp
  | saveGame u n g =>
    refine ⟨id, [], challengeStep_id, ?_, Or.inl rfl⟩
    simp only [step, saveGame]
    split
    · simp
    split
    · simp
    split
    · simp
    split <;> simp [updateSave]
  | createPvPChallenge u o =>
    simp only [step, createPvPChallenge]
    split
    · exact ⟨id, [], challengeStep_id, by simp, Or.inl rfl⟩
    split
    · exact ⟨id, [], challengeStep_id, by simp, Or.inl rfl⟩
    split
    · exact ⟨id, [], challengeStep_id, by simp, Or.inl rfl⟩
    split
    · exact ⟨id, [], challengeStep_id, by simp, Or.inl rfl⟩
    · rename_i challengerRow _ _ opponentRow _ _ hnone
      refine ⟨id, [ChallengeRow.mk
          (nextId s.pvp_challenges_seq (s.pvp_challenges.map (fun c => c.id)))
          challengerRow.id opponentRow.id .pending none], challengeStep_id, by simp,
        Or.inr ⟨_, rfl, rfl, rfl, ?_⟩⟩
      unfold pendingBetween
      rw [List.filter_eq_nil_iff]
      intro c hc
      exact (List.find?_eq_none.mp hnone) c hc
  | respondToChallenge u c a =>
    simp only [step, respondToChallenge]
    split
    · exact ⟨id, [], challengeStep_id, by simp, Or.inl rfl⟩
    split
    · exact ⟨id, [], challengeStep_id, by simp, Or.inl rfl⟩
    · rename_i accept _
      exact ⟨_, [], challengeStep_respond c accept, by simp, Or.inl rfl⟩
  | pvpBattle u c g t =>
    obtain ⟨f, hf, h⟩ := pvpBattle_pvp_challenges s u c g t
    exact ⟨f, [], hf, by simp [step, h], Or.inl rfl⟩

theorem pendingBetween_length_step (s : Store) (req : Request) (a b : ℕ) :
    (pendingBetween (step s req) a b).length ≤ (pendingBetween s a b).length
    ∨ (pendingBetween s a b = [] ∧ (pendingBetween (step s req) a b).length ≤ 1) := by
  obtain ⟨f, added, hf, heq, hadd⟩ := step_pvp_challenges s req
  have hmap : ((s.pvp_challenges.map f).filter (fun c =>
      decide (c.challenger_id = a ∧ c.opponent_id = b ∧ c.status = .pending))).length
      ≤ (pendingBetween s a b).length := by
    unfold pendingBetween
    rw [← List.countP_eq_length_filter, ← List.countP_eq_length_filter, List.countP_map]
    apply List.countP_mono_left
    intro c _ hc
    obtain ⟨-, f2, f3, f4⟩ := hf c
    simp only [Function.comp, decide_eq_true_eq] at hc ⊢
    exact ⟨f2 ▸ hc.1, f3 ▸ hc.2.1, f4 hc.2.2⟩
  rcases hadd with rfl | ⟨row, rfl, -, -, hnone⟩
  · left
    unfold pendingBetween at hmap ⊢
    rw [heq, List.append_nil]
    exact hmap
  · by_cases hpair : row.challenger_id = a ∧ row.opponent_id = b
    · right
      obtain ⟨rfl, rfl⟩ := hpair
      refine ⟨hnone, ?_⟩
      rw [hnone] at hmap
      have h0 := Nat.le_zero.mp hmap
      have h1 : (List.filter (fun c => decide (c.challenger_id = row.challenger_id
          ∧ c.opponent_id = row.opponent_id ∧ c.status = .pending)) [row]).length ≤ 1 :=
        le_trans (List.length_filter_le _ _) (by simp)
      unfold pendingBetween
      rw [heq, List.filter_append, List.length_append, h0]
      omega
    · left
      have h1 : List.filter (fun c => decide (c.challenger_id = a
          ∧ c.opponent_id = b ∧ c.status = .pending)) [row] = [] := by
        rw [List.filter_eq_nil_iff]
        intro c hc
        rw [List.mem_singleton] at hc
        subst hc
        simp only [decide_eq_true_eq]
        exact fun h => hpair ⟨h.1, h.2.1⟩
      have h2 : (pendingBetween (step s req) a b).length
          = ((s.pvp_challenges.map f).filter (fun c =>
            decide (c.challenger_id = a ∧ c.opponent_id = b ∧ c.status = .pending))).length := by
        unfold pendingBetween
        rw [heq, List.filter_append, h1, List.append_nil]
      rw [h2]
      exact hmap

theorem reachable_pending_unique {s : Store} (h : Reachable s) (a b : ℕ) :
    (pendingBetween s a b).length ≤ 1 := by
  refine reachable_induction (P := fun s => ∀ a b, (pendingBetween s a b).length ≤ 1)
    ?_ ?_ h a b
  · intro a b
    simp [pendingBetween, Store.empty]
  · intro s req _ ih a b
    rcases pendingBetween_length_step s req a b with h1 | ⟨-, h1⟩
    · exact le_trans h1 (ih a b)
    · exact h1

theorem find?_pending_eq_none_iff (s : Store) (a b : ℕ) :
    s.pvp_challenges.find? (fun c =>
      decide (c.challenger_id = a ∧ c.opponent_id = b ∧ c.status = .pending)) = none
    ↔ pendingBetween s a b = [] := by
  unfold pendingBetween
  rw [List.find?_eq_none, List.filter_eq_nil_iff]

/-- The handler `createPvPChallenge` for two existing accounts of a reachable
database, by whether the pair has a pending challenge. -/
theorem createPvPChallenge_of_mem {s : Store} (hs : Reachable s) {challenger opponent : UserRow}
    (hc : challenger ∈ s.users) (ho : opponent ∈ s.users) :
    (pendingBetween s challenger.id opponent.id ≠ [] →
      createPvPChallenge s challenger.username opponent.username
        = (s, .failure DuplicatePending))
    ∧ (pendingBetween s challenger.id opponent.id = [] →
      createPvPChallenge s challenger.username opponent.username
        = ({ s with
              pvp_challenges := s.pvp_challenges ++
                [ChallengeRow.mk
                  (nextId s.pvp_challenges_seq (s.pvp_challenges.map (fun c => c.id)))
                  challenger.id opponent.id .pending none]
              pvp_challenges_seq :=
                nextId s.pvp_challenges_seq (s.pvp_challenges.map (fun c => c.id)) },
            .success (nextId s.pvp_challenges_seq (s.pvp_challenges.map (fun c => c.id))))) := by
  have hu := reachable_users hs
  have hfc := findUser_of_mem hu hc
  have hfo := findUser_of_mem hu ho
  have hnc := hu.nonempty challenger hc
  have hno := hu.nonempty opponent ho
  constructor
  · intro hp
    have hfind : s.pvp_challenges.find? (fun c => decide (c.challenger_id = challenger.id
        ∧ c.opponent_id = opponent.id ∧ c.status = .pending)) ≠ none :=
      fun h => hp ((find?_pending_eq_none_iff s _ _).mp h)
    obtain ⟨row, hrow⟩ := Option.ne_none_iff_exists'.mp hfind
    simp only [createPvPChallenge, hnc, hno, or_self, if_false, hfc, hfo, hrow]
  · intro hp
    have hfind := (find?_pending_eq_none_iff s challenger.id opponent.id).mpr hp
    simp only [createPvPChallenge, hnc, hno, or_self, if_false, hfc, hfo, hfind]

/-! ### Session texts -/

theorem textLess_common_prefix (p : List Char) (x y : Char) (r1 r2 : List Char)
    (h : x.toNat < y.toNat) : textLess (p ++ x :: r1) (p ++ y :: r2) = true := by
  induction p with
  | nil => simp [textLess, h]
  | cons c p ih => simp [textLess, ih]

/-- On the calendar date of `a`, whatever the time of day, the text of
`datetime('now')` sorts before the ISO text of `a`: position 10 holds a blank
in the former and the letter `T` in the latter. -/
theorem sqliteDatetime_less_toISOString_same_date (a b : UTCInstant)
    (hy : a.year = b.year) (hm : a.month = b.month) (hd : a.day = b.day) :
    textLess (sqliteDatetime b).data (toISOString a).data = true := by
  have hdate : dateText b = dateText a := by simp [dateText, hy, hm, hd]
  simp only [sqliteDatetime, toISOString, hdate]
  exact textLess_common_prefix _ ' ' 'T' _ _ (by decide)

theorem verifySession_fails (s : Store) (token now : String) (ht : token ≠ "")
    (h : ∀ r ∈ s.sessions, r.token = token → textLess now.data r.expires_at.data = false) :
    verifySession s token now = .failure InvalidOrExpiredSession := by
  unfold verifySession
  rw [if_neg ht]
  have hnone : s.sessions.findSome? (fun r =>
      if r.token = token ∧ textLess now.data r.expires_at.data = true then
        (s.users.find? (fun u => decide (u.id = r.user_id))).map
          (fun u => (r.user_id, u.username))
      else none) = none := by
    rw [List.findSome?_eq_none_iff]
    intro r hr
    by_cases htok : r.token = token
    · simp [htok, h r hr htok]
    · simp [htok]
  rw [hnone]

/-- A session created by `login` is accepted at every instant of the calendar
date of its expiry. -/
theorem login_verifySession_same_date (s : Store) (username password token : String)
    (a b : UTCInstant) (userId : ℕ) (name : String) (htoken : token ≠ "")
    (hlogin : (login s username password true token (toISOString a)).2 = .success (userId, name))
    (hy : a.year = b.year) (hm : a.month = b.month) (hd : a.day = b.day) :
    ∃ name', verifySession (login s username password true token (toISOString a)).1 token
      (sqliteDatetime b) = .success (userId, name') := by
  have hless := sqliteDatetime_less_toISOString_same_date a b hy hm hd
  unfold login at hlogin ⊢
  split at hlogin
  · simp at hlogin
  rename_i hreq
  rw [if_neg hreq]
  split at hlogin
  · simp at hlogin
  rename_i row hrow
  simp only [hrow]
  simp only [Bool.not_true, Bool.false_eq_true, if_false] at hlogin ⊢
  split at hlogin
  · simp at hlogin
  rename_i hany
  rw [if_neg hany]
  simp only [Reply.success.injEq, Prod.mk.injEq] at hlogin
  obtain ⟨hid, -⟩ := hlogin
  subst hid
  have hmem : row ∈ s.users := List.mem_of_find?_eq_some hrow
  have hold : ∀ r ∈ s.sessions, r.token ≠ token := by
    intro r hr htok
    apply hany
    rw [List.any_eq_true]
    exact ⟨r, hr, by simp [htok]⟩
  cases hu : s.users.find? (fun u => decide (u.id = row.id)) with
  | none =>
    have := List.find?_eq_none.mp hu row hmem
    simp at this
  | some u =>
    refine ⟨u.username, ?_⟩
    unfold verifySession
    rw [if_neg htoken]
    have hfs : List.findSome? (fun r =>
        if r.token = token ∧ textLess (sqliteDatetime b).data r.expires_at.data = true then
          (s.users.find? (fun u => decide (u.id = r.user_id))).map
            (fun u => (r.user_id, u.username))
        else none)
        (s.sessions ++ [SessionRow.mk (nextId s.sessions_seq (s.sessions.map (fun r => r.id)))
          row.id token (toISOString a)]) = some (row.id, u.username) := by
      rw [List.findSome?_append]
      have h1 : List.findSome? (fun r =>
          if r.token = token ∧ textLess (sqliteDatetime b).data r.expires_at.data = true then
            (s.users.find? (fun u => decide (u.id = r.user_id))).map
              (fun u => (r.user_id, u.username))
          else none) s.sessions = none := by
        rw [List.findSome?_eq_none_iff]
        intro r hr
        simp [hold r hr]
      rw [h1]
      simp [hless, hu]
    simp only [hfs]

/-! ### Strength with an unknown character -/

theorem jsNumber_mul_nan (x : JSNumber) : x.mul .nan = .nan := by
  cases x <;> rfl

theorem jsNumber_nan_mul (x : JSNumber) : JSNumber.nan.mul x = .nan := by
  cases x <;> rfl

theorem jsNumber_add_nan (x : JSNumber) : x.add .nan = .nan := by
  cases x <;> rfl

theorem jsNumber_nan_add (x : JSNumber) : JSNumber.nan.add x = .nan := by
  cases x <;> rfl

theorem characters_inherited {name : String} (h : name ∈ objectPrototypeKeys) :
    characters name = .inherited := by
  have h1 : name ≠ "Walter" := by
    intro e; rw [e] at h; revert h; decide
  have h2 : name ≠ "Jesse" := by
    intro e; rw [e] at h; revert h; decide
  simp [characters, h1, h2, h]

theorem calculateBattleStrength_inherited (state : GameState)
    (h : state.character ∈ objectPrototypeKeys) :
    calculateBattleStrength state = .ok .nan := by
  simp only [calculateBattleStrength, characters_inherited h, jsNumber_mul_nan,
    jsNumber_nan_mul, jsNumber_add_nan, jsNumber_nan_add]

theorem calculateBattleStrength_undefined (state : GameState)
    (h1 : state.character ≠ "Walter") (h2 : state.character ≠ "Jesse")
    (h3 : state.character ∉ objectPrototypeKeys) :
    calculateBattleStrength state = .error .typeError := by
  simp [calculateBattleStrength, characters, h1, h2, h3]

theorem pvpBattle_of_typeError (s : Store) (username : String) (challengeId : ℕ)
    (state : GameState) (timestamp : String)
    (h : calculateBattleStrength state = .error .typeError) :
    (pvpBattle s username challengeId (some state) timestamp).1 = s
    ∧ ∀ r, (pvpBattle s username challengeId (some state) timestamp).2 ≠ .success r := by
  have hno : ∀ s' r, pvpBattle s username challengeId (some state) timestamp
      ≠ (s', .success r) := by
    intro s' r hsucc
    obtain ⟨g, _, _, _, ps, _, hg, -, -, -, -, -, -, hps, -⟩ := pvpBattle_success_inv hsucc
    cases hg
    rw [h] at hps
    cases hps
  constructor
  · rcases pvpBattle_fst_eq_or_success s username challengeId (some state) timestamp
      with h1 | ⟨r, h1⟩
    · exact h1
    · exact absurd h1 (hno _ r)
  · intro r hr
    exact hno (pvpBattle s username challengeId (some state) timestamp).1 r
      (Prod.ext rfl hr)

/-! ### Calls in flight -/

theorem advance_finished (s : Store) (c : Call) (h : c.progress = .finished) :
    advance s c = (s, c) := by
  unfold advance
  rw [h]

theorem advanceBy_finished (n : ℕ) (s : Store) (c : Call) (h : c.progress = .finished) :
    advanceBy n s c = (s, c) := by
  induction n with
  | zero => rfl
  | succ n ih => rw [advanceBy, advance_finished s c h]; exact ih

theorem advanceBy_finish (n : ℕ) (s : Store) (c : Call) (r : Reply BattleResult) :
    advanceBy n s (c.finish r) = (s, c.finish r) :=
  advanceBy_finished n s _ rfl

/-- A call that runs alone to its end does what the handler `pvpBattle` does. -/
theorem advanceBy_eq_pvpBattle (s : Store) (username : String) (challengeId : ℕ)
    (gameState : Option GameState) (timestamp : String) :
    (advanceBy 8 s (Call.start username challengeId gameState timestamp)).1
      = (pvpBattle s username challengeId gameState timestamp).1
    ∧ (advanceBy 8 s (Call.start username challengeId gameState timestamp)).2.reply
      = some (pvpBattle s username challengeId gameState timestamp).2 := by
  cases gameState with
  | none => simp [advanceBy, advance, Call.start, pvpBattle, advanceBy_finish, Call.finish]
  | some g =>
    by_cases hreq : username = "" ∨ challengeId = 0
    · simp [advanceBy, advance, Call.start, pvpBattle, hreq, advanceBy_finish, Call.finish]
    cases hch : findAcceptedChallenge s challengeId with
    | none => simp [advanceBy, advance, Call.start, pvpBattle, hreq, hch, advanceBy_finish, Call.finish]
    | some challenge =>
      cases hpl : findUser s username with
      | none =>
        simp [advanceBy, advance, Call.start, pvpBattle, hreq, hch, hpl, advanceBy_finish, Call.finish]
      | some player =>
        by_cases hpart : player.id ≠ challenge.challenger_id ∧ player.id ≠ challenge.opponent_id
        · simp [advanceBy, advance, Call.start, pvpBattle, hreq, hch, hpl, hpart,
            advanceBy_finish, Call.finish]
        cases hrow : findSave s (if player.id = challenge.challenger_id then
            challenge.opponent_id else challenge.challenger_id) with
        | none =>
          simp [advanceBy, advance, Call.start, pvpBattle, hreq, hch, hpl, hpart, hrow,
            advanceBy_finish, Call.finish]
        | some gameRow =>
          cases hps : calculateBattleStrength g with
          | error e =>
            simp [advanceBy, advance, Call.start, pvpBattle, hreq, hch, hpl, hpart, hrow, hps,
              advanceBy_finish, Call.finish]
          | ok ps =>
            cases hos : calculateBattleStrength (JSON_parse gameRow.game_state) with
            | error e =>
              simp [advanceBy, advance, Call.start, pvpBattle, hreq, hch, hpl, hpart, hrow, hps,
                hos, advanceBy_finish, Call.finish]
            | ok os =>
              cases hgt : ps.gt os <;>
                simp [advanceBy, advance, Call.start, pvpBattle, hreq, hch, hpl, hpart, hrow,
                  hps, hos, hgt, PendingWrite.apply]
/-- The reply of a call is sent at its third step and is the reply of the
handler on the database that the call has read. -/
theorem advanceBy_three_reply (s : Store) (username : String) (challengeId : ℕ)
    (gameState : Option GameState) (timestamp : String) :
    (advanceBy 3 s (Call.start username challengeId gameState timestamp)).2.reply
      = some (pvpBattle s username challengeId gameState timestamp).2
    ∧ (advanceBy 3 s (Call.start username challengeId gameState timestamp)).2.progress.answered
      = true := by
  cases gameState with
  | none =>
    simp [advanceBy, advance, Call.start, pvpBattle, advanceBy_finish, Call.finish,
      Progress.answered]
  | some g =>
    by_cases hreq : username = "" ∨ challengeId = 0
    · simp [advanceBy, advance, Call.start, pvpBattle, hreq, advanceBy_finish, Call.finish,
        Progress.answered]
    cases hch : findAcceptedChallenge s challengeId with
    | none =>
      simp [advanceBy, advance, Call.start, pvpBattle, hreq, hch, advanceBy_finish,
        Call.finish, Progress.answered]
    | some challenge =>
      cases hpl : findUser s username with
      | none =>
        simp [advanceBy, advance, Call.start, pvpBattle, hreq, hch, hpl, advanceBy_finish,
          Call.finish, Progress.answered]
      | some player =>
        by_cases hpart : player.id ≠ challenge.challenger_id ∧ player.id ≠ challenge.opponent_id
        · simp [advanceBy, advance, Call.start, pvpBattle, hreq, hch, hpl, hpart,
            advanceBy_finish, Call.finish, Progress.answered]
        cases hrow : findSave s (if player.id = challenge.challenger_id then
            challenge.opponent_id else challenge.challenger_id) with
        | none =>
          simp [advanceBy, advance, Call.start, pvpBattle, hreq, hch, hpl, hpart, hrow,
            advanceBy_finish, Call.finish, Progress.answered]
        | some gameRow =>
          cases hps : calculateBattleStrength g with
          | error e =>
            simp [advanceBy, advance, Call.start, pvpBattle, hreq, hch, hpl, hpart, hrow, hps,
              advanceBy_finish, Call.finish, Progress.answered]
          | ok ps =>
            cases hos : calculateBattleStrength (JSON_parse gameRow.game_state) with
            | error e =>
              simp [advanceBy, advance, Call.start, pvpBattle, hreq, hch, hpl, hpart, hrow, hps,
                hos, advanceBy_finish, Call.finish, Progress.answered]
            | ok os =>
              cases hgt : ps.gt os <;>
                simp [advanceBy, advance, Call.start, pvpBattle, hreq, hch, hpl, hpart, hrow,
                  hps, hos, hgt, Progress.answered]

/-- A step of a call that has not sent its reply yet leaves the database as it
is. -/
theorem advance_reading (s : Store) (c : Call) (h : 1 ≤ c.progress.readingSteps) :
    (advance s c).1 = s
    ∧ c.progress.readingSteps - 1 ≤ (advance s c).2.progress.readingSteps := by
  unfold advance
  cases hp : c.progress with
  | received =>
    simp only [hp]
    split
    · simp [Call.finish, Progress.readingSteps]
    split
    · simp [Call.finish, Progress.readingSteps]
    split <;> simp [Call.finish, Progress.readingSteps]
  | hasChallenge challenge =>
    simp only [hp]
    split
    · simp [Call.finish, Progress.readingSteps]
    split <;> simp [Call.finish, Progress.readingSteps]
  | hasPlayer challenge player =>
    simp only [hp]
    split
    · simp [Call.finish, Progress.readingSteps]
    split
    · simp [Call.finish, Progress.readingSteps]
    split
    · simp [Call.finish, Progress.readingSteps]
    split <;> simp [Call.finish, Progress.readingSteps]
  | writing pending =>
    rw [hp] at h
    simp [Progress.readingSteps] at h
  | finished =>
    simp [hp, Progress.readingSteps]

/-- Once the reply of a call is sent, its further steps do not change it. -/
theorem advance_answered (s : Store) (c : Call) (h : c.progress.answered = true) :
    (advance s c).2.reply = c.reply ∧ (advance s c).2.progress.answered = true := by
  unfold advance
  cases hp : c.progress with
  | received => rw [hp] at h; simp [Progress.answered] at h
  | hasChallenge challenge => rw [hp] at h; simp [Progress.answered] at h
  | hasPlayer challenge player => rw [hp] at h; simp [Progress.answered] at h
  | writing pending =>
    cases pending with
    | nil => simp [Progress.answered]
    | cons w rest => simp [Progress.answered]
  | finished => simp [hp, Progress.answered]

theorem advanceBy_reading (n : ℕ) (s : Store) (c : Call) (h : n ≤ c.progress.readingSteps) :
    (advanceBy n s c).1 = s := by
  induction n generalizing c with
  | zero => rfl
  | succ n ih =>
    obtain ⟨h1, h2⟩ := advance_reading s c (by omega)
    rw [advanceBy, h1]
    exact ih _ (by omega)

theorem advanceBy_succ_reading (n : ℕ) (s : Store) (c : Call)
    (h : 1 ≤ c.progress.readingSteps) :
    advanceBy (n + 1) s c = advanceBy n s (advance s c).2 := by
  rw [advanceBy, (advance_reading s c h).1]

/-- As long as neither call has sent its reply, the order of their steps does
not matter: the database stays as it is and each call proceeds as if alone. -/
theorem interleave_reading (s : Store) (a b : Call) (schedule : List Bool)
    (ha : schedule.count false ≤ a.progress.readingSteps)
    (hb : schedule.count true ≤ b.progress.readingSteps) :
    interleave s a b schedule
      = (s, (advanceBy (schedule.count false) s a).2, (advanceBy (schedule.count true) s b).2) := by
  induction schedule generalizing a b with
  | nil => rfl
  | cons x rest ih =>
    cases x with
    | false =>
      simp only [List.count_cons_self, List.count_cons_of_ne (by decide : (true : Bool) ≠ false)]
        at ha hb ⊢
      obtain ⟨h1, h2⟩ := advance_reading s a (by omega)
      rw [interleave, h1, ih _ _ (by omega) hb, advanceBy_succ_reading _ _ _ (by omega)]
    | true =>
      simp only [List.count_cons_self, List.count_cons_of_ne (by decide : (false : Bool) ≠ true)]
        at ha hb ⊢
      obtain ⟨h1, h2⟩ := advance_reading s b (by omega)
      rw [interleave, h1, ih _ _ ha (by omega), advanceBy_succ_reading _ _ _ (by omega)]

theorem interleave_append (s : Store) (a b : Call) (p q : List Bool) :
    interleave s a b (p ++ q)
      = interleave (interleave s a b p).1 (interleave s a b p).2.1 (interleave s a b p).2.2 q := by
  induction p generalizing s a b with
  | nil => rfl
  | cons x rest ih =>
    cases x with
    | false => exact ih (advance s a).1 (advance s a).2 b
    | true => exact ih (advance s b).1 a (advance s b).2

theorem interleave_answered (s : Store) (a b : Call) (schedule : List Bool)
    (ha : a.progress.answered = true) (hb : b.progress.answered = true) :
    (interleave s a b schedule).2.1.reply = a.reply
    ∧ (interleave s a b schedule).2.2.reply = b.reply := by
  induction schedule generalizing s a b with
  | nil => exact ⟨rfl, rfl⟩
  | cons x rest ih =>
    cases x with
    | false =>
      obtain ⟨h1, h2⟩ := advance_answered s a ha
      rw [interleave]
      obtain ⟨i1, i2⟩ := ih (advance s a).1 (advance s a).2 b h2 hb
      exact ⟨i1.trans h1, i2⟩
    | true =>
      obtain ⟨h1, h2⟩ := advance_answered s b hb
      rw [interleave]
      obtain ⟨i1, i2⟩ := ih (advance s b).1 a (advance s b).2 ha h2
      exact ⟨i1, i2.trans h1⟩

/-- Two calls whose first three steps each come before the fourth step of
either are both answered as the handler answers on the initial database,
whatever the order of those steps and whatever follows. -/
theorem interleave_both_read_first (s : Store) (u1 u2 : String) (c1 c2 : ℕ)
    (g1 g2 : Option GameState) (t1 t2 : String) (first later : List Bool)
    (h1 : first.count false = 3) (h2 : first.count true = 3) :
    (interleave s (Call.start u1 c1 g1 t1) (Call.start u2 c2 g2 t2) (first ++ later)).2.1.reply
      = some (pvpBattle s u1 c1 g1 t1).2
    ∧ (interleave s (Call.start u1 c1 g1 t1) (Call.start u2 c2 g2 t2) (first ++ later)).2.2.reply
      = some (pvpBattle s u2 c2 g2 t2).2 := by
  have hfirst := interleave_reading s (Call.start u1 c1 g1 t1) (Call.start u2 c2 g2 t2) first
    (by rw [h1]; rfl) (by rw [h2]; rfl)
  rw [h1, h2] at hfirst
  obtain ⟨ra, pa⟩ := advanceBy_three_reply s u1 c1 g1 t1
  obtain ⟨rb, pb⟩ := advanceBy_three_reply s u2 c2 g2 t2
  rw [interleave_append, hfirst]
  obtain ⟨k1, k2⟩ := interleave_answered s _ _ later pa pb
  exact ⟨k1.trans ra, k2.trans rb⟩

/-! # The properties of the specification -/

/-! ## Resolve needs an accepted challenge -/

/-- C1: `resolve` with all required members present, on a challenge id that no
row carries or whose rows are pending, rejected or completed, fails with
`ChallengeNotAcceptedOrMissing` and leaves the whole database as it was. -/
theorem pvpBattle_fails_unless_accepted (s : Store) (username : String) (challengeId : ℕ)
    (gameState : GameState) (timestamp : String)
    (hu : username ≠ "") (hc : challengeId ≠ 0)
    (h : ∀ c ∈ s.pvp_challenges, c.id = challengeId →
      c.status = .pending ∨ c.status = .rejected ∨ c.status = .completed) :
    pvpBattle s username challengeId (some gameState) timestamp
      = (s, .failure ChallengeNotAcceptedOrMissing) := by
  have hnone : findAcceptedChallenge s challengeId = none := by
    apply findAcceptedChallenge_eq_none
    intro c hmem hid hacc
    rcases h c hmem hid with h1 | h1 | h1 <;> rw [hacc] at h1 <;> cases h1
  simp [pvpBattle, hu, hc, hnone]

/-- Witness of C1 on the pending challenge of the worked scenario. -/
theorem pvpBattle_fails_unless_accepted_witness :
    pvpBattle examplePending "bob" 1 (some exampleCounterpart) exampleTimestamp
      = (examplePending, .failure ChallengeNotAcceptedOrMissing) :=
  pvpBattle_fails_unless_accepted examplePending "bob" 1 exampleCounterpart exampleTimestamp
    (by decide) (by decide) (by decide)

/-! ## Resolve completes a challenge once -/

/-- C2: a successful `resolve` leaves the challenge completed with the
returned result document as its `battleResult`, and `resolve` on the same
challenge right after, by any user with any game state, fails with
`ChallengeNotAcceptedOrMissing` and changes nothing in the database. -/
theorem pvpBattle_completes_exactly_once (s s' : Store) (username : String) (challengeId : ℕ)
    (gameState : Option GameState) (timestamp : String) (r : BattleResult)
    (h : pvpBattle s username challengeId gameState timestamp = (s', .success r)) :
    (∃ c ∈ s'.pvp_challenges, c.id = challengeId)
    ∧ (∀ c ∈ s'.pvp_challenges, c.id = challengeId →
        c.status = .completed ∧ c.battle_result.map JSON_parse = some r)
    ∧ challengeStatus s' challengeId = .success .completed
    ∧ challengeResult s' challengeId = .success r
    ∧ ∀ (username' : String) (gameState' : GameState) (timestamp' : String), username' ≠ "" →
        pvpBattle s' username' challengeId (some gameState') timestamp'
          = (s', .failure ChallengeNotAcceptedOrMissing) := by
  obtain ⟨g, challenge, player, gameRow, ps, os, -, -, hc0, hch, -, -, -, -, -, -, hs'⟩ :=
    pvpBattle_success_inv h
  obtain ⟨c0, hc0mem, hc0id, -⟩ := findAcceptedChallenge_some hch
  have hrows : s'.pvp_challenges = s.pvp_challenges.map (fun c =>
      if c.id = challengeId then
        { c with status := .completed, battle_result := some ⟨r⟩ }
      else c) := by
    rw [hs']
    simp only [writeBack_pvp_challenges]
    unfold completeChallenge
    split <;> simp
  have hall : ∀ c ∈ s'.pvp_challenges, c.id = challengeId →
      c.status = .completed ∧ c.battle_result.map JSON_parse = some r := by
    intro c hc hid
    rw [hrows, List.mem_map] at hc
    obtain ⟨c1, -, hc1⟩ := hc
    by_cases h1 : c1.id = challengeId
    · simp [h1] at hc1
      subst hc1
      simp [JSON_parse]
    · simp [h1] at hc1
      subst hc1
      exact absurd hid h1
  have hex : ∃ c ∈ s'.pvp_challenges, c.id = challengeId := by
    rw [hrows]
    refine ⟨{ c0 with status := .completed, battle_result := some ⟨r⟩ }, ?_, hc0id⟩
    rw [List.mem_map]
    exact ⟨c0, hc0mem, by simp [hc0id]⟩
  refine ⟨hex, hall, ?_, ?_, ?_⟩
  · unfold challengeStatus
    rw [if_neg hc0]
    cases hf : s'.pvp_challenges.find? (fun c => decide (c.id = challengeId)) with
    | none =>
      obtain ⟨c, hc, hid⟩ := hex
      have := List.find?_eq_none.mp hf c hc
      simp [hid] at this
    | some row =>
      have h1 := List.find?_some hf
      have m1 := List.mem_of_find?_eq_some hf
      simp at h1
      simp [(hall row m1 h1).1]
  · unfold challengeResult
    rw [if_neg hc0]
    cases hf : s'.pvp_challenges.find? (fun c =>
        decide (c.id = challengeId ∧ c.status = .completed)) with
    | none =>
      obtain ⟨c, hc, hid⟩ := hex
      have := List.find?_eq_none.mp hf c hc
      simp [hid, (hall c hc hid).1] at this
    | some row =>
      have h1 := List.find?_some hf
      have m1 := List.mem_of_find?_eq_some hf
      simp at h1
      have h2 := (hall row m1 h1.1).2
      cases hb : row.battle_result with
      | none => simp [hb] at h2
      | some t =>
        simp [hb] at h2
        simp only [hb, h2]
  · intro username' gameState' timestamp' hu'
    have hnone : findAcceptedChallenge s' challengeId = none := by
      apply findAcceptedChallenge_eq_none
      intro c hc hid hacc
      have := (hall c hc hid).1
      rw [hacc] at this
      cases this
    simp [pvpBattle, hu', hc0, hnone]

/-- Witness of C2 on the worked scenario: `alice` resolves, then `bob` retries. -/
theorem pvpBattle_completes_exactly_once_witness :
    pvpBattle exampleStore "alice" 1 (some exampleActing) exampleTimestamp
      = (exampleAfter, .success exampleResult)
    ∧ challengeResult exampleAfter 1 = .success exampleResult
    ∧ pvpBattle exampleAfter "bob" 1 (some exampleCounterpart) exampleTimestamp
      = (exampleAfter, .failure ChallengeNotAcceptedOrMissing) :=
  have h := pvpBattle_completes_exactly_once exampleStore exampleAfter "alice" 1
    (some exampleActing) exampleTimestamp exampleResult exampleStore_pvpBattle
  ⟨exampleStore_pvpBattle, h.2.2.2.1,
    h.2.2.2.2 "bob" exampleCounterpart exampleTimestamp (by decide)⟩

/-! ## Battle strength -/

/-- C3: for a Walter or Jesse game state `calculateBattleStrength` returns the
value of the specification's formula; the worked example has strength `15.5`
(`31 * 2^1073` units of `2^-1074`). -/
theorem calculateBattleStrength_eq_specStrength (state : GameState)
    (h : state.character = "Walter" ∨ state.character = "Jesse") :
    calculateBattleStrength state = .ok (specStrength state)
    ∧ (weaponSkill "Walter" = lit 8 10 ∧ weaponSkill "Jesse" = lit 5 10)
    ∧ calculateBattleStrength exampleActing = .ok (.fin (31 * ((1 <<< 1073 : ℕ) : ℤ))) := by
  refine ⟨?_, ⟨by decide, by decide⟩, by decide⟩
  rcases h with h | h <;>
    simp [calculateBattleStrength, specStrength, characters, weaponSkill, h]

/-- Witness of C3 on the worked example. -/
theorem calculateBattleStrength_eq_specStrength_witness :
    calculateBattleStrength exampleActing = .ok (specStrength exampleActing) :=
  (calculateBattleStrength_eq_specStrength exampleActing (Or.inl rfl)).1

/-! ## The winner -/

/-- C4: in a successful `resolve` the result says `playerWon` exactly when the
strength of the submitted game state is strictly greater than the strength of
the counterpart's stored game state; with equal strengths `playerWon` is false,
and whenever `playerWon` is false the counterpart is credited the win and its
save receives the reward. -/
theorem pvpBattle_playerWon_iff_strictly_stronger (s s' : Store) (username : String)
    (challengeId : ℕ) (gameState : Option GameState) (timestamp : String) (r : BattleResult)
    (h : pvpBattle s username challengeId gameState timestamp = (s', .success r)) :
    ∃ g challenge player gameRow playerStrength opponentStrength,
      gameState = some g
      ∧ findAcceptedChallenge s challengeId = some challenge
      ∧ findUser s username = some player
      ∧ findSave s (counterpartId challenge player) = some gameRow
      ∧ calculateBattleStrength g = .ok playerStrength
      ∧ calculateBattleStrength (JSON_parse gameRow.game_state) = .ok opponentStrength
      ∧ (r.playerWon = true ↔ playerStrength.gt opponentStrength = true)
      ∧ (playerStrength = opponentStrength → r.playerWon = false)
      ∧ (r.playerWon = false →
          s'.pvp_stats
            = (recordWin (recordLoss s player.id) (counterpartId challenge player)).pvp_stats
          ∧ findSave s' (counterpartId challenge player)
            = some { gameRow with
                game_state := JSON_stringify ((JSON_parse gameRow.game_state).gain
                  (Math_floor (opponentStrength.mul (lit 100 1)))) }) := by
  obtain ⟨g, challenge, player, gameRow, ps, os, hg, -, -, hch, hpl, -, hrow, hps, hos, hr, hs'⟩ :=
    pvpBattle_success_inv h
  have hwon : r.playerWon = ps.gt os := by rw [hr]; rfl
  refine ⟨g, challenge, player, gameRow, ps, os, hg, hch, hpl, hrow, hps, hos, ?_, ?_, ?_⟩
  · rw [hwon]
  · intro heq
    rw [hwon, heq, jsNumber_gt_irrefl]
  · intro hlost
    rw [hwon] at hlost
    rw [hs']
    simp only [hlost, Bool.false_eq_true, if_false]
    refine ⟨by simp, ?_⟩
    have h2 : findSave (completeChallenge
        (recordWin (recordLoss s player.id) (counterpartId challenge player))
        challengeId ⟨r⟩) (counterpartId challenge player) = some gameRow := hrow
    obtain ⟨t, ht⟩ := findSave_writeBack_shape (u := player.id)
      (g.lose (Math_floor (ps.mul (lit 50 1)))) h2
    rw [findSave_writeBack_self _ ht]

/-- Witness of C4 on the worked scenario. -/
theorem pvpBattle_playerWon_iff_strictly_stronger_witness :
    pvpBattle exampleStore "alice" 1 (some exampleActing) exampleTimestamp
      = (exampleAfter, .success exampleResult)
    ∧ ∃ playerStrength opponentStrength : JSNumber,
        calculateBattleStrength exampleActing = .ok playerStrength
        ∧ (exampleResult.playerWon = true ↔ playerStrength.gt opponentStrength = true) :=
  ⟨exampleStore_pvpBattle,
    let ⟨_, _, _, _, ps, os, hg, _, _, _, hps, _, hiff, _⟩ :=
      pvpBattle_playerWon_iff_strictly_stronger exampleStore exampleAfter "alice" 1
        (some exampleActing) exampleTimestamp exampleResult exampleStore_pvpBattle
    ⟨ps, os, by cases hg; exact hps, hiff⟩⟩

/-! ## Reward and loss -/

/-- C5 fails as stated: when `bob` (strength `10.0`) resolves against `alice`
(strength `15.5`), `alice` wins, yet the reward is `1550 = floor(15.5 * 100)`,
not `floor(loserStrength * 100) = 1000`, and the loss is `500 = floor(10.0 * 50)`,
not `floor(winnerStrength * 50) = 775`. -/
theorem pvpBattle_reward_not_from_loser :
    (pvpBattle exampleStore "bob" 1 (some exampleCounterpart) exampleTimestamp).2
      = .success exampleLostResult
    ∧ calculateBattleStrength exampleCounterpart = .ok (lit 10 1)
    ∧ calculateBattleStrength exampleActing = .ok (lit 31 2)
    ∧ exampleLostResult.playerWon = false
    ∧ exampleLostResult.reward ≠ .number (specReward false (lit 10 1) (lit 31 2))
    ∧ exampleLostResult.loss ≠ .number (specLoss false (lit 10 1) (lit 31 2))
    ∧ specReward false (lit 10 1) (lit 31 2) = lit 1000 1
    ∧ specLoss false (lit 10 1) (lit 31 2) = lit 775 1 := by
  decide

/-- C5, as amended: in every successful `resolve` the result's reward is
`floor(counterpartStrength * 100)` and its loss is `floor(actingStrength * 50)`,
whichever side wins (written as `null` when not finite); these are the
specification's `floor(loserStrength * 100)` and `floor(winnerStrength * 50)`
when the acting player wins; with acting strength `15.5` and counterpart strength
`10.0` the reward is `1000` and the loss `775`. -/
theorem pvpBattle_reward_loss (s s' : Store) (username : String)
    (challengeId : ℕ) (gameState : Option GameState) (timestamp : String) (r : BattleResult)
    (h : pvpBattle s username challengeId gameState timestamp = (s', .success r)) :
    (∃ g challenge player gameRow playerStrength opponentStrength,
      gameState = some g
      ∧ findAcceptedChallenge s challengeId = some challenge
      ∧ findUser s username = some player
      ∧ findSave s (counterpartId challenge player) = some gameRow
      ∧ calculateBattleStrength g = .ok playerStrength
      ∧ calculateBattleStrength (JSON_parse gameRow.game_state) = .ok opponentStrength
      ∧ r.reward = (JSValue.number (Math_floor (opponentStrength.mul (lit 100 1)))).jsonRoundTrip
      ∧ r.loss = (JSValue.number (Math_floor (playerStrength.mul (lit 50 1)))).jsonRoundTrip
      ∧ (r.playerWon = true →
          r.reward = (JSValue.number
              (specReward r.playerWon playerStrength opponentStrength)).jsonRoundTrip
          ∧ r.loss = (JSValue.number
              (specLoss r.playerWon playerStrength opponentStrength)).jsonRoundTrip))
    ∧ Math_floor ((lit 10 1).mul (lit 100 1)) = lit 1000 1
    ∧ Math_floor ((lit 31 2).mul (lit 50 1)) = lit 775 1 := by
  refine ⟨?_, by decide, by decide⟩
  obtain ⟨g, challenge, player, gameRow, ps, os, hg, -, -, hch, hpl, -, hrow, hps, hos, hr, -⟩ :=
    pvpBattle_success_inv h
  refine ⟨g, challenge, player, gameRow, ps, os, hg, hch, hpl, hrow, hps, hos, ?_, ?_, ?_⟩
  · rw [hr]; rfl
  · rw [hr]; rfl
  · intro hwon
    rw [hwon]
    constructor
    · rw [hr]; rfl
    · rw [hr]; rfl

/-- Witness of C5 on the worked scenario: reward `1000` and loss `775`. -/
theorem pvpBattle_reward_loss_witness :
    pvpBattle exampleStore "alice" 1 (some exampleActing) exampleTimestamp
      = (exampleAfter, .success exampleResult)
    ∧ exampleResult.reward = .number (lit 1000 1)
    ∧ exampleResult.loss = .number (lit 775 1)
    ∧ Math_floor ((lit 10 1).mul (lit 100 1)) = lit 1000 1
    ∧ Math_floor ((lit 31 2).mul (lit 50 1)) = lit 775 1 :=
  have h := pvpBattle_reward_loss exampleStore exampleAfter "alice" 1
    (some exampleActing) exampleTimestamp exampleResult exampleStore_pvpBattle
  ⟨exampleStore_pvpBattle, rfl, rfl, h.2.1, h.2.2⟩

/-! ## Money after a battle -/

/-- C6 fails as stated: `alice` resolves challenge 1 with a game state of
strength `17.5` whose money is `-5000`; she wins against `bob` (strength `10.0`),
the reward is `1000`, and her save is written with money `-4000`, below zero. -/
theorem pvpBattle_winner_money_negative :
    (pvpBattle exampleStore "alice" 1 (some exampleDebtor) exampleTimestamp).2
      = .success exampleDebtorResult
    ∧ exampleDebtorResult.playerWon = true
    ∧ (findSave (pvpBattle exampleStore "alice" 1 (some exampleDebtor) exampleTimestamp).1 1).map
        (fun row => (JSON_parse row.game_state).money) = some (.number (lit (-4000) 1))
    ∧ (lit (-4000) 1).isNegative = true := by
  decide

/-- C6, as amended: after a successful `resolve` between two different
accounts that both have a save, the winner's save holds its game state with
`money = previous money + reward` and the loser's save holds its game state with
`money = max(0, previous money - loss)`, the acting player's game state being the
submitted one and the counterpart's the stored one, and no other member changed
before `JSON.stringify` writes them.  The loser's persisted money is never below
zero; the winner's is not below zero when neither its previous money nor the
reward is below zero. -/
theorem pvpBattle_money (s s' : Store) (username : String)
    (challengeId : ℕ) (gameState : Option GameState) (timestamp : String) (r : BattleResult)
    (hs : Reachable s)
    (h : pvpBattle s username challengeId gameState timestamp = (s', .success r)) :
    (∃ g challenge player gameRow playerStrength opponentStrength,
      gameState = some g
      ∧ findAcceptedChallenge s challengeId = some challenge
      ∧ findUser s username = some player
      ∧ findSave s (counterpartId challenge player) = some gameRow
      ∧ calculateBattleStrength g = .ok playerStrength
      ∧ calculateBattleStrength (JSON_parse gameRow.game_state) = .ok opponentStrength
      ∧ (JSON_parse gameRow.game_state).jsonRoundTrip = JSON_parse gameRow.game_state
      ∧ ∀ playerRow, player.id ≠ counterpartId challenge player →
          findSave s player.id = some playerRow →
          findSave s' player.id = some { playerRow with
            game_state := JSON_stringify
              (if r.playerWon then g.gain (Math_floor (opponentStrength.mul (lit 100 1)))
               else g.lose (Math_floor (playerStrength.mul (lit 50 1)))) }
          ∧ findSave s' (counterpartId challenge player) = some { gameRow with
            game_state := JSON_stringify
              (if r.playerWon then
                (JSON_parse gameRow.game_state).lose
                  (Math_floor (playerStrength.mul (lit 50 1)))
               else (JSON_parse gameRow.game_state).gain
                  (Math_floor (opponentStrength.mul (lit 100 1)))) })
    ∧ (∀ (g : GameState) (reward : JSNumber), g.jsonRoundTrip = g →
        JSON_parse (JSON_stringify (g.gain reward))
          = { g with money := (JSValue.number (g.money.toNumber.add reward)).jsonRoundTrip })
    ∧ (∀ (g : GameState) (loss : JSNumber), g.jsonRoundTrip = g →
        JSON_parse (JSON_stringify (g.lose loss))
          = { g with money :=
                (JSValue.number (Math_max (lit 0 1) (g.money.toNumber.sub loss))).jsonRoundTrip })
    ∧ (∀ (g : GameState) (loss : JSNumber),
        (JSON_parse (JSON_stringify (g.lose loss))).money.toNumber.isNegative = false)
    ∧ (∀ (g : GameState) (reward : JSNumber),
        g.money.toNumber.isNegative = false → reward.isNegative = false →
        (JSON_parse (JSON_stringify (g.gain reward))).money.toNumber.isNegative = false) := by
  refine ⟨?_, ?_, ?_, ?_, ?_⟩
  · obtain ⟨g, challenge, player, gameRow, ps, os, hg, -, -, hch, hpl, -, hrow, hps, hos, hr, hs'⟩ :=
      pvpBattle_success_inv h
    have hwf := reachable_saves hs
    have hwon : r.playerWon = ps.gt os := by rw [hr]; rfl
    refine ⟨g, challenge, player, gameRow, ps, os, hg, hch, hpl, hrow, hps, hos,
      hwf.texts gameRow (findSave_mem hrow), ?_⟩
    intro playerRow hne hprow
    have hids := save_ids_distinct hwf hprow hrow hne
    rw [hs', hwon]
    cases hgt : ps.gt os
    · simp only [Bool.false_eq_true, if_false]
      exact findSave_after_writeBacks _ _ hids hprow hrow
    · simp only [if_true]
      exact findSave_after_writeBacks _ _ hids hprow hrow
  · intro g reward hgr
    have e : JSON_parse (JSON_stringify (g.gain reward)) = { g.jsonRoundTrip with
        money := (JSValue.number (g.money.toNumber.add reward)).jsonRoundTrip } := rfl
    rw [e, hgr]
  · intro g loss hgr
    have e : JSON_parse (JSON_stringify (g.lose loss)) = { g.jsonRoundTrip with
        money := (JSValue.number
          (Math_max (lit 0 1) (g.money.toNumber.sub loss))).jsonRoundTrip } := rfl
    rw [e, hgr]
  · intro g loss
    exact jsonRoundTrip_not_negative (Math_max_zero_not_negative _)
  · intro g reward h1 h2
    exact jsonRoundTrip_not_negative (add_not_negative h1 h2)

/-- Witness of C6 on the worked scenario: `alice` ends with `2000`, `bob` with
`9225`. -/
theorem pvpBattle_money_witness :
    pvpBattle exampleStore "alice" 1 (some exampleActing) exampleTimestamp
      = (exampleAfter, .success exampleResult)
    ∧ (findSave exampleAfter 1).map (fun row => (JSON_parse row.game_state).money)
        = some (.number (lit 2000 1))
    ∧ (findSave exampleAfter 2).map (fun row => (JSON_parse row.game_state).money)
        = some (.number (lit 9225 1))
    ∧ (JSON_parse (JSON_stringify (exampleCounterpart.lose (lit 775 1)))).money.toNumber.isNegative
        = false :=
  have h := pvpBattle_money exampleStore exampleAfter "alice" 1
    (some exampleActing) exampleTimestamp exampleResult exampleStore_reachable
    exampleStore_pvpBattle
  ⟨exampleStore_pvpBattle, by decide, by decide, h.2.2.2.1 exampleCounterpart (lit 775 1)⟩

/-! ## Reputation records -/

/-- C7: a successful `resolve` between two different accounts credits the
winner's reputation record `wins + 1`, `reputation + 10`, charges the loser's
`losses + 1`, `reputation = max(0, reputation - 5)`, and changes no other record;
in every reachable state reputation, wins and losses are at least `0`, and no
sequence of requests lowers the wins or losses of a record. -/
theorem pvpBattle_reputation (s s' : Store) (username : String)
    (challengeId : ℕ) (gameState : Option GameState) (timestamp : String) (r : BattleResult)
    (h : pvpBattle s username challengeId gameState timestamp = (s', .success r)) :
    (∃ challenge player,
      findAcceptedChallenge s challengeId = some challenge
      ∧ findUser s username = some player
      ∧ (player.id ≠ counterpartId challenge player →
          s'.pvp_stats = s.pvp_stats.map (fun row =>
            if row.user_id = (if r.playerWon then player.id
                else counterpartId challenge player) then
              { row with wins := row.wins + 1, reputation := row.reputation + 10 }
            else if row.user_id = (if r.playerWon then counterpartId challenge player
                else player.id) then
              { row with losses := row.losses + 1, reputation := max 0 (row.reputation - 5) }
            else row)))
    ∧ (∀ t : Store, Reachable t →
        ∀ row ∈ t.pvp_stats, 0 ≤ row.reputation ∧ 0 ≤ row.wins ∧ 0 ≤ row.losses)
    ∧ (∀ (t : Store) (requests : List Request) (userId : ℕ) (row : StatsRow),
        findStats t userId = some row →
        ∃ row', findStats (run t requests) userId = some row'
          ∧ row.wins ≤ row'.wins ∧ row.losses ≤ row'.losses) := by
  refine ⟨?_, fun t ht => reachable_stats_nonneg ht, fun t requests userId row hrow =>
    findStats_run requests hrow⟩
  obtain ⟨g, challenge, player, gameRow, ps, os, -, -, -, hch, hpl, -, -, -, -, hr, hs'⟩ :=
    pvpBattle_success_inv h
  have hwon : r.playerWon = ps.gt os := by rw [hr]; rfl
  refine ⟨challenge, player, hch, hpl, ?_⟩
  intro hne
  rw [hs', hwon]
  simp only [writeBack_pvp_stats, completeChallenge_pvp_stats]
  cases ps.gt os
  · simp only [Bool.false_eq_true, if_false, recordWin, recordLoss, List.map_map]
    apply List.map_congr_left
    intro row _
    simp only [Function.comp]
    have hne' := Ne.symm hne
    by_cases h1 : row.user_id = player.id
    · simp [h1, StatsRow.loss, hne, hne']
    · by_cases h2 : row.user_id = counterpartId challenge player
      · simp [h2, StatsRow.win, hne, hne']
      · simp [h1, h2]
  · simp only [if_true, recordWin, recordLoss, List.map_map]
    apply List.map_congr_left
    intro row _
    simp only [Function.comp]
    have hne' := Ne.symm hne
    by_cases h1 : row.user_id = player.id
    · simp [h1, StatsRow.win, hne, hne']
    · by_cases h2 : row.user_id = counterpartId challenge player
      · simp [h2, StatsRow.loss, hne, hne']
      · simp [h1, h2]

/-- Witness of C7 on the worked scenario. -/
theorem pvpBattle_reputation_witness :
    pvpBattle exampleStore "alice" 1 (some exampleActing) exampleTimestamp
      = (exampleAfter, .success exampleResult)
    ∧ exampleAfter.pvp_stats
      = [{ user_id := 1, wins := 1, losses := 0, reputation := 110 },
         { user_id := 2, wins := 0, losses := 1, reputation := 95 }]
    ∧ ∀ row ∈ exampleStore.pvp_stats, 0 ≤ row.reputation ∧ 0 ≤ row.wins ∧ 0 ≤ row.losses :=
  have h := pvpBattle_reputation exampleStore exampleAfter "alice" 1
    (some exampleActing) exampleTimestamp exampleResult exampleStore_pvpBattle
  ⟨exampleStore_pvpBattle, by decide, h.2.1 exampleStore exampleStore_reachable⟩

/-! ## Terminal states -/

/-- C8 at a failing input: challenge 1 of the worked scenario is completed;
`respond` on it with `accept = true` succeeds and its status becomes
`accepted`; `respond` with `accept = false` succeeds as well and makes it
`rejected`, from which a further `respond` makes it `accepted` again. -/
theorem respondToChallenge_reopens_completed :
    challengeStatus exampleAfter 1 = .success .completed
    ∧ (respondToChallenge exampleAfter "bob" 1 (some true)).2 = .success true
    ∧ challengeStatus (respondToChallenge exampleAfter "bob" 1 (some true)).1 1
        = .success .accepted
    ∧ (respondToChallenge exampleAfter "bob" 1 (some false)).2 = .success false
    ∧ challengeStatus (respondToChallenge exampleAfter "bob" 1 (some false)).1 1
        = .success .rejected
    ∧ challengeStatus (respondToChallenge
          (respondToChallenge exampleAfter "bob" 1 (some false)).1 "bob" 1 (some true)).1 1
        = .success .accepted := by
  decide

/-! ## The battle result is set once -/

/-- C9 at a failing input: challenge 1 of the worked scenario is completed
with a `battleResult`; after `respond` with `accept = true` a second `resolve`
succeeds, replaces the `battleResult`, and credits the reputation records and
the money a second time. -/
theorem pvpBattle_twice_after_reopen :
    challengeResult exampleAfter 1 = .success exampleResult
    ∧ findStats exampleAfter 1 = some { user_id := 1, wins := 1, losses := 0, reputation := 110 }
    ∧ findStats exampleAfter 2 = some { user_id := 2, wins := 0, losses := 1, reputation := 95 }
    ∧ (pvpBattle exampleReopened "bob" 1 (some exampleCounterpart) exampleLaterTimestamp).2
        = .success exampleReplayedResult
    ∧ challengeResult exampleReplayed 1 = .success exampleReplayedResult
    ∧ exampleReplayedResult ≠ exampleResult
    ∧ findStats exampleReplayed 1
        = some { user_id := 1, wins := 2, losses := 0, reputation := 120 }
    ∧ findStats exampleReplayed 2
        = some { user_id := 2, wins := 0, losses := 2, reputation := 90 }
    ∧ (findSave exampleAfter 1).map (fun row => (JSON_parse row.game_state).money)
        = some (.number (lit 2000 1))
    ∧ (findSave exampleReplayed 1).map (fun row => (JSON_parse row.game_state).money)
        = some (.number (lit 3650 1)) := by
  decide

/-! ## One save per account -/

/-- C10: in a reachable database, after `N ≥ 1` consecutive `save` calls for an
existing account with structurally valid game-state documents, exactly one
`saved_games` row belongs to the account, every call has returned the same save
id, and `load` returns that id and the document of the last call; in every
reachable database no account owns more than one row. -/
theorem saveGame_single_save (s : Store) (hs : Reachable s) (account : UserRow)
    (hacc : account ∈ s.users) (calls : List (String × GameState)) (hcalls : calls ≠ [])
    (hvalid : ∀ call ∈ calls, call.2.isJSON = true) :
    ((saveAll s account.username calls).1.saved_games.filter
        (fun r => decide (r.user_id = account.id))).length = 1
    ∧ (∃ saveId saveName lastCall,
        (∀ reply ∈ (saveAll s account.username calls).2, reply = .success saveId)
        ∧ (saveAll s account.username calls).2.length = calls.length
        ∧ calls.getLast? = some lastCall
        ∧ loadGame (saveAll s account.username calls).1 account.username
          = .success { saveId := saveId, saveName := saveName, gameState := lastCall.2 })
    ∧ (∀ t : Store, Reachable t → ∀ userId : ℕ,
        (t.saved_games.filter (fun r => decide (r.user_id = userId))).length ≤ 1) := by
  obtain ⟨call, rest, rfl⟩ := List.exists_cons_of_ne_nil hcalls
  obtain ⟨saveName, g⟩ := call
  obtain ⟨row1, hreply, hfind1, htext1, -⟩ := saveGame_of_mem hs hacc saveName g
  have hs1 : Reachable (saveGame s account.username saveName (some g)).1 :=
    reachable_step hs (.saveGame account.username saveName (some g))
  have hmem1 : account ∈ (saveGame s account.username saveName (some g)).1.users := by
    rw [saveGame_users]; exact hacc
  obtain ⟨r1, r2, r3, row, r4, r5, r6⟩ := saveAll_of_saved hs1 hmem1 hfind1 rest
  refine ⟨filter_owner_length_eq_one (reachable_saves r1) r4, ?_, fun t ht userId =>
    filter_owner_length_le_one t.saved_games userId (reachable_saves ht).owners⟩
  have hlen : ∀ (t : Store) (l : List (String × GameState)),
      (saveAll t account.username l).2.length = l.length := by
    intro t l
    induction l generalizing t with
    | nil => rfl
    | cons c l ih => simp [saveAll, ih]
  have hlast : ∃ lastCall, ((saveName, g) :: rest).getLast? = some lastCall
      ∧ row.game_state = JSON_stringify lastCall.2 := by
    cases rest with
    | nil => exact ⟨(saveName, g), rfl, by rw [r6]; simp [htext1]⟩
    | cons c rest' =>
      rw [List.getLast?_cons_cons]
      cases hl : (c :: rest').getLast? with
      | none => simp at hl
      | some lc => exact ⟨lc, rfl, by rw [r6, hl]⟩
  obtain ⟨lastCall, hl1, hl2⟩ := hlast
  refine ⟨row1.id, row.name, lastCall, ?_, hlen _ _, hl1, ?_⟩
  · intro reply hreply'
    simp only [saveAll, List.mem_cons] at hreply'
    rcases hreply' with rfl | hreply'
    · exact hreply
    · exact r3 reply hreply'
  · have hu := reachable_users r1
    have hfu := findUser_of_mem hu r2
    have hne := hu.nonempty account r2
    have hjson : lastCall.2.isJSON = true := hvalid lastCall (List.mem_of_getLast?_eq_some hl1)
    unfold loadGame
    simp only [hne, if_false]
    have e : saveAll s account.username ((saveName, g) :: rest)
        = ((saveAll (saveGame s account.username saveName (some g)).1 account.username rest).1,
           (saveGame s account.username saveName (some g)).2 ::
            (saveAll (saveGame s account.username saveName (some g)).1 account.username rest).2) :=
      rfl
    rw [e]
    simp only [hfu, r4, r5, hl2, JSON_parse, JSON_stringify,
      gameState_jsonRoundTrip_of_isJSON hjson]

/-- Witness of C10: the first two saves of the new account `alice`. -/
theorem saveGame_single_save_witness :
    (List.filter (fun r => decide (r.user_id = 1))
      (saveAll exampleFresh "alice"
        [("", exampleCounterpart), ("slot-2", exampleActing)]).1.saved_games).length = 1
    ∧ (saveAll exampleFresh "alice" [("", exampleCounterpart), ("slot-2", exampleActing)]).2
        = [.success 1, .success 1]
    ∧ loadGame (saveAll exampleFresh "alice"
          [("", exampleCounterpart), ("slot-2", exampleActing)]).1 "alice"
        = .success { saveId := 1, saveName := "AutoSave", gameState := exampleActing } :=
  have h := saveGame_single_save exampleFresh ⟨_, rfl⟩
    { id := 1, username := "alice", password := "hash-a" } (by decide)
    [("", exampleCounterpart), ("slot-2", exampleActing)] (by decide) (by decide)
  ⟨h.1, by decide, by decide⟩

/-! ## Pending challenges are unique per ordered pair -/

/-- C11: for two existing accounts of a reachable database, `createChallenge`
fails with `DuplicatePending` exactly when a pending challenge from the
challenger to the opponent exists, and then changes nothing; otherwise it
appends one row, pending and without result, from the challenger to the
opponent, under a fresh id that it returns.  In every reachable database an
ordered pair of accounts has at most one pending challenge. -/
theorem createPvPChallenge_duplicate_pending (s : Store) (hs : Reachable s)
    (challenger opponent : UserRow) (hc : challenger ∈ s.users) (ho : opponent ∈ s.users) :
    ((createPvPChallenge s challenger.username opponent.username).2 = .failure DuplicatePending
      ↔ ∃ c ∈ s.pvp_challenges, c.challenger_id = challenger.id
          ∧ c.opponent_id = opponent.id ∧ c.status = .pending)
    ∧ ((∃ c ∈ s.pvp_challenges, c.challenger_id = challenger.id
          ∧ c.opponent_id = opponent.id ∧ c.status = .pending) →
        (createPvPChallenge s challenger.username opponent.username).1 = s)
    ∧ ((¬ ∃ c ∈ s.pvp_challenges, c.challenger_id = challenger.id
          ∧ c.opponent_id = opponent.id ∧ c.status = .pending) →
        ∃ row : ChallengeRow,
          createPvPChallenge s challenger.username opponent.username
            = ({ s with pvp_challenges := s.pvp_challenges ++ [row],
                        pvp_challenges_seq := row.id }, .success row.id)
          ∧ row.challenger_id = challenger.id ∧ row.opponent_id = opponent.id
          ∧ row.status = .pending ∧ row.battle_result = none
          ∧ ∀ c ∈ s.pvp_challenges, c.id < row.id)
    ∧ (∀ t : Store, Reachable t → ∀ a b : ℕ, (pendingBetween t a b).length ≤ 1) := by
  obtain ⟨hdup, hnew⟩ := createPvPChallenge_of_mem hs hc ho
  have hiff : (∃ c ∈ s.pvp_challenges, c.challenger_id = challenger.id
      ∧ c.opponent_id = opponent.id ∧ c.status = .pending)
      ↔ pendingBetween s challenger.id opponent.id ≠ [] := by
    unfold pendingBetween
    rw [Ne, List.filter_eq_nil_iff]
    simp
  refine ⟨?_, ?_, ?_, fun t ht a b => reachable_pending_unique ht a b⟩
  · rw [hiff]
    constructor
    · intro hfail hp
      rw [hnew hp] at hfail
      simp at hfail
    · intro hp
      rw [hdup hp]
  · intro hex
    rw [hdup (hiff.mp hex)]
  · intro hno
    have hp : pendingBetween s challenger.id opponent.id = [] := by
      by_contra hcon
      exact hno (hiff.mpr hcon)
    refine ⟨_, hnew hp, rfl, rfl, rfl, rfl, ?_⟩
    intro c hc'
    exact lt_nextId s.pvp_challenges_seq _ c.id (List.mem_map.mpr ⟨c, hc', rfl⟩)

/-- Witness of C11 on the worked scenario, where `alice` has a pending
challenge to `bob`: a second one is refused, the reverse one is created. -/
theorem createPvPChallenge_duplicate_pending_witness :
    (createPvPChallenge examplePending "alice" "bob").2 = .failure DuplicatePending
    ∧ (createPvPChallenge examplePending "bob" "alice").2 = .success 2
    ∧ (pendingBetween examplePending 1 2).length ≤ 1 :=
  have h := createPvPChallenge_duplicate_pending examplePending ⟨exampleSetup, rfl⟩
    { id := 1, username := "alice", password := "hash-a" }
    { id := 2, username := "bob", password := "hash-b" } (by decide) (by decide)
  ⟨h.1.mpr (by decide), by decide, h.2.2.2 examplePending ⟨exampleSetup, rfl⟩ 1 2⟩

/-! ## Sessions expire -/

/-- C12 at a failing input: `alice` logs in with a session that expires on
31 January 2025 at 10:00; at 15:00 of the same day, five hours after the expiry,
`resolveSession` with the session's token still succeeds, because
`2025-01-31 15:00:00` sorts before `2025-01-31T10:00:00.000Z` as a text; it fails
from the next day on.  The same holds on the expiry date of any session.  A
token that is not empty and whose rows all fail the comparison, or that matches
no row, fails with `InvalidOrExpiredSession`. -/
theorem verifySession_accepts_expired_session :
    (login exampleFresh "alice" "secret" true "token-1" (toISOString exampleExpiry)).2
      = .success (1, "alice")
    ∧ exampleLoggedIn.sessions
      = [{ id := 1, user_id := 1, token := "token-1", expires_at := "2025-01-31T10:00:00.000Z" }]
    ∧ sqliteDatetime exampleAfterExpiry = "2025-01-31 15:00:00"
    ∧ exampleExpiry.before exampleAfterExpiry = true
    ∧ verifySession exampleLoggedIn "token-1" (sqliteDatetime exampleAfterExpiry)
      = .success (1, "alice")
    ∧ verifySession exampleLoggedIn "token-1" (sqliteDatetime exampleNextDay)
      = .failure InvalidOrExpiredSession
    ∧ verifySession exampleLoggedIn "token-2" (sqliteDatetime exampleAfterExpiry)
      = .failure InvalidOrExpiredSession
    ∧ (∀ a b : UTCInstant, a.year = b.year → a.month = b.month → a.day = b.day →
        textLess (sqliteDatetime b).data (toISOString a).data = true)
    ∧ (∀ (s : Store) (username password token : String) (a b : UTCInstant) (userId : ℕ)
        (name : String), token ≠ "" →
        (login s username password true token (toISOString a)).2 = .success (userId, name) →
        a.year = b.year → a.month = b.month → a.day = b.day →
        ∃ name', verifySession (login s username password true token (toISOString a)).1 token
          (sqliteDatetime b) = .success (userId, name'))
    ∧ (∀ (s : Store) (token now : String), token ≠ "" →
        (∀ r ∈ s.sessions, r.token = token → textLess now.data r.expires_at.data = false) →
        verifySession s token now = .failure InvalidOrExpiredSession) := by
  refine ⟨by decide, by decide, by decide, by decide, by decide, by decide, by decide,
    ?_, ?_, ?_⟩
  · exact sqliteDatetime_less_toISOString_same_date
  · exact login_verifySession_same_date
  · exact verifySession_fails

/-! ## Unknown characters -/

/-- C13 at a failing input: for the character `constructor`, a property that
the table object inherits, `calculateBattleStrength` returns `NaN`, and
`resolve` with such a game state succeeds and completes the challenge, the
acting player losing.  Every inherited property name gives `NaN`.  For every
other name that is neither `Walter` nor `Jesse` the function throws a
`TypeError`, and `resolve` neither succeeds nor changes the database. -/
theorem calculateBattleStrength_inherited_character :
    characters "constructor" = .inherited
    ∧ characters "toString" = .inherited
    ∧ calculateBattleStrength exampleIntruder = .ok .nan
    ∧ (pvpBattle exampleStore "alice" 1 (some exampleIntruder) exampleTimestamp).2
      = .success exampleIntruderResult
    ∧ challengeStatus
        (pvpBattle exampleStore "alice" 1 (some exampleIntruder) exampleTimestamp).1 1
      = .success .completed
    ∧ (∀ state : GameState, state.character ∈ objectPrototypeKeys →
        calculateBattleStrength state = .ok .nan)
    ∧ (∀ state : GameState, state.character ≠ "Walter" → state.character ≠ "Jesse" →
        state.character ∉ objectPrototypeKeys →
        calculateBattleStrength state = .error .typeError
        ∧ ∀ (s : Store) (username : String) (challengeId : ℕ) (timestamp : String),
            (pvpBattle s username challengeId (some state) timestamp).1 = s
            ∧ ∀ r, (pvpBattle s username challengeId (some state) timestamp).2 ≠ .success r) := by
  refine ⟨by decide, by decide, by decide, by decide, by decide, ?_, ?_⟩
  · exact calculateBattleStrength_inherited
  · intro state h1 h2 h3
    have h := calculateBattleStrength_undefined state h1 h2 h3
    exact ⟨h, fun s username challengeId timestamp =>
      pvpBattle_of_typeError s username challengeId state timestamp h⟩

/-! ## Two calls of resolve at once -/

/-- C14 at a failing input: on the accepted challenge 1 of the worked
scenario, the calls of `alice` and of `bob` taking their steps in turn are
both answered with a result document; the win of `alice` and the loss of `bob`
are counted twice, and the money of the second result is paid on top of the
first; no statement of either call remains to be executed.  When one call ends before the other starts, the second is refused and
the database is that of a single resolution.  In general a call running alone
is the handler, and two calls that have each run their three queries before
either runs an update are both answered as the handler answers on the initial
database. -/
theorem pvpBattle_interleaved_both_succeed :
    challengeStatus exampleStore 1 = .success .accepted
    ∧ (interleave exampleStore exampleCallA exampleCallB exampleAlternating).2.1.reply
      = some (.success exampleResult)
    ∧ (interleave exampleStore exampleCallA exampleCallB exampleAlternating).2.2.reply
      = some (.success { exampleLostResult with timestamp := exampleLaterTimestamp })
    ∧ (interleave exampleStore exampleCallA exampleCallB exampleAlternating).2.1.progress
      = .writing []
    ∧ (interleave exampleStore exampleCallA exampleCallB exampleAlternating).2.2.progress
      = .writing []
    ∧ exampleStore.pvp_stats
      = [StatsRow.mk 1 0 0 100, StatsRow.mk 2 0 0 100]
    ∧ (interleave exampleStore exampleCallA exampleCallB exampleAlternating).1.pvp_stats
      = [StatsRow.mk 1 2 0 120, StatsRow.mk 2 0 2 90]
    ∧ exampleAfter.pvp_stats
      = [StatsRow.mk 1 1 0 110, StatsRow.mk 2 0 1 95]
    ∧ (findSave (interleave exampleStore exampleCallA exampleCallB exampleAlternating).1 1).map
        (fun row => (JSON_parse row.game_state).money) = some (.number (lit 2550 1))
    ∧ (findSave exampleAfter 1).map
        (fun row => (JSON_parse row.game_state).money) = some (.number (lit 2000 1))
    ∧ challengeStatus
        (interleave exampleStore exampleCallA exampleCallB exampleAlternating).1 1
      = .success .completed
    ∧ (interleave exampleStore exampleCallA exampleCallB exampleOneAfterTheOther).2.1.reply
      = some (.success exampleResult)
    ∧ (interleave exampleStore exampleCallA exampleCallB exampleOneAfterTheOther).2.2.reply
      = some (.failure ChallengeNotAcceptedOrMissing)
    ∧ (interleave exampleStore exampleCallA exampleCallB exampleOneAfterTheOther).1
      = exampleAfter
    ∧ (∀ (s : Store) (username : String) (challengeId : ℕ) (gameState : Option GameState)
        (timestamp : String),
        (advanceBy 8 s (Call.start username challengeId gameState timestamp)).1
          = (pvpBattle s username challengeId gameState timestamp).1
        ∧ (advanceBy 8 s (Call.start username challengeId gameState timestamp)).2.reply
          = some (pvpBattle s username challengeId gameState timestamp).2)
    ∧ (∀ (s : Store) (u1 u2 : String) (c1 c2 : ℕ) (g1 g2 : Option GameState)
        (t1 t2 : String) (first later : List Bool),
        first.count false = 3 → first.count true = 3 →
        (interleave s (Call.start u1 c1 g1 t1) (Call.start u2 c2 g2 t2)
            (first ++ later)).2.1.reply = some (pvpBattle s u1 c1 g1 t1).2
        ∧ (interleave s (Call.start u1 c1 g1 t1) (Call.start u2 c2 g2 t2)
            (first ++ later)).2.2.reply = some (pvpBattle s u2 c2 g2 t2).2) := by
  refine ⟨by decide, by decide, by decide, by decide, by decide, by decide, by decide,
    by decide, by decide, by decide, by decide, by decide, by decide, by decide, ?_, ?_⟩
  · exact advanceBy_eq_pvpBattle
  · exact interleave_both_read_first

end BreakingBad
